import Mathlib

/-!
# Auto-elevator controller (`semerlin/jupiter`, `src/board`)

A shallow embedding of the robot wire protocol (`protocol_robot.c`) and of the
parts of the elevator state (`elevator.c`) that its command handlers touch.

Conventions of the embedding

* A C byte (`uint8_t`, `char`) is a `Nat` holding its bit pattern; a byte array
  passed with its length is a `List Nat`, and `data[i]` is `data.getD i 0`.
* `uint16_t` arithmetic is written with an explicit `% 65536`.
* The module-level variables of the firmware are the fields of `State`; the
  bytes handed to the transport and the key relay are logged in `State.sent`
  and `State.keys`.
* The stack buffers (`payload[30]`, `buffer[33]`) are lists that grow as the
  code writes through `pdata`; the source performs no capacity check and the
  embedding performs none either.
-/

namespace Jupiter

/-! ## `protocol_robot.c`: framing constants -/

abbrev ROBOT_HEAD : Nat := 0x02
abbrev ROBOT_TAIL : Nat := 0x03

abbrev CONVERT : Nat := 0x04
abbrev CONVERT_2 : Nat := 0x06
abbrev CONVERT_3 : Nat := 0x07

abbrev CONVERT_ORIGIN : Nat := 0x04
abbrev CONVERT_2_ORIGIN : Nat := 0x02
abbrev CONVERT_3_ORIGIN : Nat := 0x03

abbrev DEFAULT_FLOOR : Nat := 0xf7
abbrev LED_ON : Nat := 0x02
abbrev LED_OFF : Nat := 0x01
abbrev DOOR_ON : Nat := 0x01
abbrev DOOR_OFF : Nat := 0x00

/-! ## `protocol_robot.c`: command codes -/

abbrev CMD_CHECKIN : Nat := 30
abbrev CMD_CHECKIN_REPLY : Nat := 31
abbrev CMD_INQUIRE : Nat := 32
abbrev CMD_INQUIRE_REPLY : Nat := 33
abbrev CMD_DOOR_OPEN : Nat := 34
abbrev CMD_DOOR_OPEN_REPLY : Nat := 35
abbrev CMD_DOOR_CLOSE : Nat := 36
abbrev CMD_DOOR_CLOSE_REPLY : Nat := 37
abbrev CMD_NOTIFY_ARRIVE : Nat := 39
abbrev CMD_ARRIVE : Nat := 40
abbrev CMD_BT_NAME : Nat := 41
abbrev CMD_BT_NAME_REPLY : Nat := 42
abbrev CMD_APPLY : Nat := 50
abbrev CMD_APPLY_REPLY : Nat := 51
abbrev CMD_RELEASE : Nat := 52
abbrev CMD_RELEASE_REPLY : Nat := 53
abbrev CMD_BUSY : Nat := 55

/-! ## `send_data`: the encoder -/

/-- One iteration of the `for` loop of `send_data`.  The accumulator is the
pair (bytes written to `buffer` so far, the `uint16_t sum`); `b` is `data[i]`.
Note that `sum` is advanced by the bytes that are written to the buffer. -/
def send_data_step (acc : List Nat × Nat) (b : Nat) : List Nat × Nat :=
  if CONVERT_ORIGIN = b then
    (acc.1 ++ [CONVERT, CONVERT], ((acc.2 + CONVERT) % 65536 + CONVERT) % 65536)
  else if CONVERT_2_ORIGIN = b then
    (acc.1 ++ [CONVERT, CONVERT_2], ((acc.2 + CONVERT) % 65536 + CONVERT_2) % 65536)
  else if CONVERT_3_ORIGIN = b then
    (acc.1 ++ [CONVERT, CONVERT_3], ((acc.2 + CONVERT) % 65536 + CONVERT_3) % 65536)
  else
    (acc.1 ++ [b], (acc.2 + b) % 65536)

/-- The loop of `send_data` over `data[0 .. len-1]`, started with the head
byte already in the buffer and `sum = 0`. -/
def send_data_loop (data : List Nat) : List Nat × Nat :=
  data.foldl send_data_step ([ROBOT_HEAD], 0)

/-- The bytes `buffer[0 .. pdata - buffer - 1]` that `send_data` hands to the
transport: head, escaped payload, two check digits, tail. -/
def send_data_frame (data : List Nat) : List Nat :=
  let r := send_data_loop data
  let sum := r.2
  let d1 := sum % 10 + 0x30
  let sum := sum / 10
  let d0 := sum % 10 + 0x30
  r.1 ++ [d0, d1, ROBOT_TAIL]

/-! ## `sum_check` and the decoding part of `process_robot_data` -/

/-- The 16-bit sum computed by the loop of `sum_check`: the bytes
`data[1] .. data[len-4]` of the frame as received. -/
def sum_check_sum (data : List Nat) (len : Nat) : Nat :=
  (List.range (len - 4)).foldl (fun sum i => (sum + data.getD (i + 1) 0) % 65536) 0

/-- The function `sum_check`. -/
def sum_check (data : List Nat) (len : Nat) : Bool :=
  let sum := sum_check_sum data len
  let recv_check0 := data.getD (len - 3) 0
  let recv_check1 := data.getD (len - 2) 0
  let calc_check1 := sum % 10 + 0x30
  let sum := sum / 10
  let calc_check0 := sum % 10 + 0x30
  (recv_check0 == calc_check0) && (recv_check1 == calc_check1)

/-- The unescape loop of `process_robot_data`: `data` is the frame after
`data++`, `n` is `len - 4`, `i` the loop counter and `out` the bytes written
through `pdata` so far.  The first argument bounds the number of iterations;
`n` iterations always suffice because `i` grows in each of them. -/
def unescape_loop (data : List Nat) (n : Nat) : Nat → Nat → List Nat → List Nat
  | 0, _, out => out
  | fuel + 1, i, out =>
    if i < n then
      if CONVERT = data.getD i 0 then
        if CONVERT_2 = data.getD (i + 1) 0 then
          unescape_loop data n fuel (i + 2) (out ++ [CONVERT_2_ORIGIN])
        else if CONVERT_3 = data.getD (i + 1) 0 then
          unescape_loop data n fuel (i + 2) (out ++ [CONVERT_3_ORIGIN])
        else if CONVERT = data.getD (i + 1) 0 then
          unescape_loop data n fuel (i + 2) (out ++ [CONVERT_ORIGIN])
        else
          unescape_loop data n fuel (i + 1) (out ++ [data.getD i 0])
      else
        unescape_loop data n fuel (i + 1) (out ++ [data.getD i 0])
    else out

/-- The payload bytes `payload[0 .. pdata - payload - 1]` produced by the
unescape loop for a frame of `len` bytes. -/
def unescape (data : List Nat) (len : Nat) : List Nat :=
  unescape_loop (data.drop 1) (len - 4) (len - 4) 0 []

/-- The acceptance tests of `process_robot_data` followed by its unescape
loop: `none` when the frame is dropped before dispatch, otherwise the decoded
payload. -/
def decode_frame (data : List Nat) (len : Nat) : Option (List Nat) :=
  if ROBOT_HEAD ≠ data.getD 0 0 then none
  else if ROBOT_TAIL = data.getD (len - 1) 0 then
    if sum_check data len then some (unescape data len) else none
  else none

/-! ## Types and collaborators declared outside `src/board` -/

/-- Modelled from the spec: the enumeration `elev_run_state`, whose declaration
(`elevator.h`) is missing; "run direction {stop, up, down}", with the
enumerator names that `elevator.c` uses. -/
inductive elev_run_state where
  | run_stop
  | run_up
  | run_down
  deriving DecidableEq, Repr

/-- Modelled from the spec: the enumeration `elev_work_state`, whose
declaration (`elevator.h`) is missing; "work mode {idle, robot}", with the
enumerator names that `elevator.c` uses. -/
inductive elev_work_state where
  | work_idle
  | work_robot
  deriving DecidableEq, Repr

export elev_run_state (run_stop run_up run_down)
export elev_work_state (work_idle work_robot)

/-- The transport chosen by `send_data` from `*pargs`: `bt_send_data` or
`ptl_send_data`. -/
inductive Channel where
  | bt
  | ptl
  deriving DecidableEq, Repr

/-- A call of `keyctl_press` or `keyctl_release` (`keyctl.h`) with its key
number. -/
inductive KeyAct where
  | press (num : Nat)
  | release (num : Nat)
  deriving DecidableEq, Repr

/-- The fields of `board_parameter` (`parameters_t`) read by the protocol
layer.  `bt_name` holds the bytes of the name array; the byte after its last
element reads as the terminating NUL that `param_init` enforces. -/
structure parameters_t where
  id_ctl : Nat
  id_elev : Nat
  total_floor : Nat
  bt_name : List Nat

/-- What the code reads from its surroundings during one call: collaborators
whose source is outside `src/board`, the numeric values of the two
enumerations, and the indeterminate prior contents of the stack array
`payload[30]` of `process_robot_data`. -/
structure Env where
  /-- The function `is_led_on` of `led_status`. -/
  is_led_on : Nat → Bool
  /-- Whether `switch_get_status()` returns `switch_arrive`. -/
  switch_is_arrive : Bool
  /-- The function `keymap_open` of `keymap`. -/
  keymap_open : Nat
  /-- The function `keymap_floor_to_key` of `keymap`. -/
  keymap_floor_to_key : Nat → Nat
  /-- Numeric value of an `elev_run_state` enumerator. -/
  run_code : elev_run_state → Nat
  /-- Numeric value of an `elev_work_state` enumerator. -/
  work_code : elev_work_state → Nat
  /-- The value `robot_id_reset` stores (the "absent" robot id). -/
  robot_id_none : Nat
  /-- Content of `payload[i]` before the unescape loop writes to it. -/
  stack : Nat → Nat
  /-- The function `is_up_led_on` of `led_status`. -/
  is_up_led_on : Nat → Bool
  /-- The function `is_down_led_on` of `led_status`. -/
  is_down_led_on : Nat → Bool
  /-- The function `keymap_key_to_floor` of `keymap`. -/
  keymap_key_to_floor : Nat → Nat
  /-- The constant `INVALID_FLOOR` of `keymap`. -/
  INVALID_FLOOR : Nat
  /-- The function `floormap_dis_to_phy` of `floormap`. -/
  floormap_dis_to_phy : Nat → Nat

/-- The module-level variables of `elevator.c`, `protocol_robot.c` and of the
robot bookkeeping, together with the logs of what was sent and which keys were
driven.  `trace` lists the command codes whose handler `process_robot_data`
has called; it is an observation of the run, not a firmware variable. -/
structure State where
  elev_cur_floor : Nat
  hold_door : Bool
  hold_cnt : Nat
  run_state : elev_run_state
  work_state : elev_work_state
  xQueueFloor : Option Nat
  xArriveQueue : Option Nat
  xNotifySemaphore : Bool
  arrive_cb : Bool
  robot_id : Nat
  checkin : Nat
  monitor_on : Bool
  monitor_cnt : Nat
  sent : List (Channel × List Nat)
  keys : List KeyAct
  trace : List Nat
  deriving DecidableEq, Repr

/-! ### Robot bookkeeping (`robot.c` is not part of `src/board`) -/

/-- Modelled from the spec: `robot_id_get` of the missing `robot.c`, the
"currently-assigned robot id". -/
def robot_id_get (s : State) : Nat := s.robot_id

/-- Modelled from the spec: `robot_id_set` of the missing `robot.c` ("assign
robot id"). -/
def robot_id_set (id : Nat) (s : State) : State := { s with robot_id := id }

/-- Modelled from the spec: `robot_id_reset` of the missing `robot.c` ("clear
robot id"); the stored value is the parameter `Env.robot_id_none`. -/
def robot_id_reset (env : Env) (s : State) : State := { s with robot_id := env.robot_id_none }

/-- Modelled from the spec: `robot_checkin_get` of the missing `robot.c`, the
"currently checked-in destination floor". -/
def robot_checkin_get (s : State) : Nat := s.checkin

/-- Modelled from the spec: `robot_checkin_set` of the missing `robot.c`
("record checkin floor"). -/
def robot_checkin_set (floor : Nat) (s : State) : State := { s with checkin := floor }

/-- Modelled from the spec: `robot_checkin_reset` of the missing `robot.c`
("clear ... checkin"); the sentinel is the value `DEFAULT_FLOOR` that the
protocol layer compares `robot_checkin_get()` with. -/
def robot_checkin_reset (s : State) : State := { s with checkin := DEFAULT_FLOOR }

/-- Modelled from the spec: `robot_monitor_reset` of the missing `robot.c`
("reset the robot's liveness/occupancy timer"). -/
def robot_monitor_reset (s : State) : State := { s with monitor_cnt := 0 }

/-- Modelled from the spec: `robot_monitor_start` of the missing `robot.c`
("(re)start occupancy timer"). -/
def robot_monitor_start (s : State) : State := { s with monitor_on := true, monitor_cnt := 0 }

/-- Modelled from the spec: `robot_monitor_stop` of the missing `robot.c`
("stop occupancy timer"). -/
def robot_monitor_stop (s : State) : State := { s with monitor_on := false }

/-! ### `elevator.c`: the functions called by the protocol layer -/

/-- The function `elev_state_run`. -/
def elev_state_run (s : State) : elev_run_state := s.run_state

/-- The function `elev_state_work`. -/
def elev_state_work (s : State) : elev_work_state := s.work_state

/-- The function `elevator_set_state_work`. -/
def elevator_set_state_work (state : elev_work_state) (s : State) : State :=
  { s with work_state := state }

/-- The function `elev_floor`. -/
def elev_floor (s : State) : Nat := s.elev_cur_floor

/-- The function `elev_go`: the key of the floor overwrites the single slot of
`xQueueFloor`. -/
def elev_go (env : Env) (floor : Nat) (s : State) : State :=
  let key := env.keymap_floor_to_key floor
  { s with xQueueFloor := some key }

/-- The function `elev_hold_open`. -/
def elev_hold_open (env : Env) (flag : Bool) (s : State) : State :=
  let key := env.keymap_open
  if flag then
    if env.switch_is_arrive then
      { s with hold_cnt := 0, hold_door := true, keys := s.keys ++ [KeyAct.press key] }
    else s
  else
    if s.hold_door then
      { s with hold_door := false, hold_cnt := 0, keys := s.keys ++ [KeyAct.release key] }
    else s

/-- The function `arrive_hook`, registered as `arrive_cb` by `elev_init`:
gives the binary semaphore. -/
def arrive_hook (s : State) : State := { s with xNotifySemaphore := true }

/-! ## `protocol_robot.c`: replies and handlers -/

/-- The byte `status.status` of the union `elev_status` once all five bit
fields are assigned, bit fields allocated from the least significant bit:
`dir:2, led:2, door:1, reserve:1, state:2`. -/
def elev_status (dir led door reserve state : Nat) : Nat :=
  dir % 4 + 4 * (led % 4) + 16 * (door % 2) + 32 * (reserve % 2) + 64 * (state % 4)

/-- The function `send_data`: the frame built from `data[0 .. len-1]` is
handed to `bt_send_data` when `*pargs` is `ROBOT_BT` (`pargs = true`) and to
`ptl_send_data` otherwise. -/
def send_data (data : List Nat) (len : Nat) (pargs : Bool) (s : State) : State :=
  let frame := send_data_frame (data.take len)
  { s with sent := s.sent ++ [(if pargs then Channel.bt else Channel.ptl, frame)] }

/-- The `led` field computed by `process_elev_apply`, `process_elev_inquire`
and `notify_busy` from a floor byte. -/
def led_flag (env : Env) (floor : Nat) : Nat :=
  if DEFAULT_FLOOR = floor then LED_OFF
  else (if env.is_led_on floor then LED_ON else LED_OFF)

/-- The function `process_elev_apply`; `data` is the array `payload` of the
caller, read without regard to `len` as in the source. -/
def process_elev_apply (env : Env) (bp : parameters_t) (pargs : Bool)
    (data : Nat → Nat) (_len : Nat) (s : State) : State :=
  let status := elev_status (env.run_code (elev_state_run s)) (led_flag env (data 5))
    DOOR_ON 0x00 (env.work_code (elev_state_work s))
  let payload := [bp.id_ctl, bp.id_elev, data 1, CMD_APPLY_REPLY, elev_floor s, data 4, status]
  let s := send_data payload 7 pargs s
  let s := robot_id_set (data 1) s
  let s := elevator_set_state_work work_robot s
  robot_monitor_start s

/-- The function `process_elev_release`. -/
def process_elev_release (env : Env) (bp : parameters_t) (pargs : Bool)
    (data : Nat → Nat) (_len : Nat) (s : State) : State :=
  let payload := [bp.id_ctl, bp.id_elev, data 1, CMD_RELEASE_REPLY, data 4, 0x00]
  let s := send_data payload 6 pargs s
  let s := elev_hold_open env false s
  let s := robot_id_reset env s
  let s := robot_checkin_reset s
  let s := elevator_set_state_work work_idle s
  robot_monitor_stop s

/-- The function `process_elev_checkin`. -/
def process_elev_checkin (env : Env) (bp : parameters_t) (pargs : Bool)
    (data : Nat → Nat) (_len : Nat) (s : State) : State :=
  let floor := data 4
  if floor > 0 ∧ floor ≤ bp.total_floor then
    let payload := [bp.id_ctl, bp.id_elev, data 1, CMD_CHECKIN_REPLY, data 4, data 5]
    let s := send_data payload 6 pargs s
    let s := robot_checkin_set floor s
    elev_go env floor s
  else s

/-- The function `process_elev_inquire`. -/
def process_elev_inquire (env : Env) (bp : parameters_t) (pargs : Bool)
    (data : Nat → Nat) (_len : Nat) (s : State) : State :=
  let p5 := robot_checkin_get s
  let status := elev_status (env.run_code (elev_state_run s)) (led_flag env p5)
    DOOR_ON 0x00 (env.work_code (elev_state_work s))
  let payload := [bp.id_ctl, bp.id_elev, data 1, CMD_INQUIRE_REPLY, elev_floor s, p5, status]
  send_data payload 7 pargs s

/-- The function `process_elev_door_open`. -/
def process_elev_door_open (env : Env) (bp : parameters_t) (pargs : Bool)
    (data : Nat → Nat) (_len : Nat) (s : State) : State :=
  let payload := [bp.id_ctl, bp.id_elev, data 1, CMD_DOOR_OPEN_REPLY]
  let s := send_data payload 4 pargs s
  elev_hold_open env true s

/-- The function `process_elev_door_close`. -/
def process_elev_door_close (env : Env) (bp : parameters_t) (pargs : Bool)
    (data : Nat → Nat) (_len : Nat) (s : State) : State :=
  let payload := [bp.id_ctl, bp.id_elev, data 1, CMD_DOOR_CLOSE_REPLY]
  let s := send_data payload 4 pargs s
  elev_hold_open env false s

/-- The function `process_elev_arrive`: calls the registered callback, if
any. -/
def process_elev_arrive (_env : Env) (_bp : parameters_t) (_pargs : Bool)
    (_data : Nat → Nat) (_len : Nat) (s : State) : State :=
  if s.arrive_cb then arrive_hook s else s

/-- The C function `strlen` on a byte array whose end reads as NUL. -/
def strlen (str : List Nat) : Nat := (str.takeWhile (fun c => c != 0)).length

/-- The function `process_elev_bt_name`. -/
def process_elev_bt_name (_env : Env) (bp : parameters_t) (pargs : Bool)
    (data : Nat → Nat) (_len : Nat) (s : State) : State :=
  let name_len := strlen bp.bt_name % 256
  let payload := [bp.id_ctl, bp.id_elev, data 1, CMD_DOOR_CLOSE_REPLY]
    ++ (List.range (name_len + 1)).map (fun i => bp.bt_name.getD i 0)
  send_data payload ((4 + name_len + 1) % 256) pargs s

/-- The function `notify_arrive`. -/
def notify_arrive (env : Env) (bp : parameters_t) (floor : Nat) (pargs : Bool)
    (s : State) : State :=
  let status := elev_status (env.run_code (elev_state_run s))
    (if env.is_led_on floor then LED_ON else LED_OFF)
    DOOR_ON 0x00 (env.work_code (elev_state_work s))
  let payload := [bp.id_ctl, bp.id_elev, robot_id_get s, CMD_NOTIFY_ARRIVE, elev_floor s, status]
  send_data payload 6 pargs s

/-- The payload assembled by `notify_busy` for requester `id`. -/
def busy_payload (env : Env) (bp : parameters_t) (id : Nat) (s : State) : List Nat :=
  let status := elev_status (env.run_code (elev_state_run s))
    (led_flag env (robot_checkin_get s))
    DOOR_ON 0x00 (env.work_code (elev_state_work s))
  [bp.id_ctl, bp.id_elev, id, CMD_BUSY, elev_floor s, robot_id_get s, status]

/-- The function `notify_busy`. -/
def notify_busy (env : Env) (bp : parameters_t) (id : Nat) (pargs : Bool)
    (s : State) : State :=
  send_data (busy_payload env bp id s) 7 pargs s

/-! ## `protocol_robot.c`: the dispatcher -/

/-- An entry of the table `cmd_handles`. -/
structure cmd_handle where
  cmd : Nat
  process : Env → parameters_t → Bool → (Nat → Nat) → Nat → State → State

/-- The table `cmd_handles`. -/
def cmd_handles : List cmd_handle :=
  [ ⟨CMD_APPLY, process_elev_apply⟩,
    ⟨CMD_RELEASE, process_elev_release⟩,
    ⟨CMD_CHECKIN, process_elev_checkin⟩,
    ⟨CMD_INQUIRE, process_elev_inquire⟩,
    ⟨CMD_DOOR_OPEN, process_elev_door_open⟩,
    ⟨CMD_DOOR_CLOSE, process_elev_door_close⟩,
    ⟨CMD_ARRIVE, process_elev_arrive⟩,
    ⟨CMD_BT_NAME, process_elev_bt_name⟩ ]

/-- The call `cmd_handles[i].process(payload, len, pargs)`, recorded in
`State.trace`. -/
def call_handler (env : Env) (bp : parameters_t) (pargs : Bool) (h : cmd_handle)
    (payload : Nat → Nat) (len : Nat) (s : State) : State :=
  h.process env bp pargs payload len { s with trace := s.trace ++ [h.cmd] }

/-- The body executed by `process_robot_data` for the table entry `h` whose
command equals `payload[3]` (the part before `break`). -/
def dispatch_entry (env : Env) (bp : parameters_t) (pargs : Bool) (h : cmd_handle)
    (payload : Nat → Nat) (len : Nat) (s : State) : State :=
  let head_ctl_id := payload 0
  let head_robot_id := payload 1
  let head_elev_id := payload 2
  let head_cmd := payload 3
  if head_ctl_id = bp.id_ctl ∧ head_elev_id = bp.id_elev then
    if work_robot = elev_state_work s then
      if head_robot_id = robot_id_get s then
        let s := robot_monitor_reset s
        if CMD_APPLY ≠ head_cmd then
          call_handler env bp pargs h payload len s
        else
          notify_busy env bp head_robot_id pargs s
      else
        notify_busy env bp head_robot_id pargs s
    else
      if CMD_APPLY = head_cmd then
        call_handler env bp pargs h payload len s
      else
        notify_busy env bp head_robot_id pargs s
  else s

/-- The `for` loop of `process_robot_data` over the entries of the table that
are still to be compared with `payload[3]`. -/
def dispatch_loop (env : Env) (bp : parameters_t) (pargs : Bool)
    (payload : Nat → Nat) (len : Nat) : List cmd_handle → State → State
  | [], s => s
  | h :: rest, s =>
    if payload 3 = h.cmd then dispatch_entry env bp pargs h payload len s
    else dispatch_loop env bp pargs payload len rest s

/-- The array `payload` of `process_robot_data` after the unescape loop wrote
`out` to its start: the bytes written, then the prior stack contents. -/
def payload_array (env : Env) (out : List Nat) : Nat → Nat :=
  fun i => out.getD i (env.stack i)

/-- The function `process_robot_data`: the returned flag and the state after
the call. -/
def process_robot_data (env : Env) (bp : parameters_t) (pargs : Bool)
    (data : List Nat) (len : Nat) (s : State) : Bool × State :=
  if ROBOT_HEAD ≠ data.getD 0 0 then (false, s)
  else if ROBOT_TAIL = data.getD (len - 1) 0 then
    if sum_check data len then
      let out := unescape data len
      (true, dispatch_loop env bp pargs (payload_array env out) (out.length % 256) cmd_handles s)
    else (true, s)
  else (true, s)

/-! ## The wire format in the words of the specification -/

/-- The escape substitution as the specification words it: `0x04` becomes
`0x04,0x04`, `0x02` becomes `0x04,0x06`, `0x03` becomes `0x04,0x07`, every
other byte is copied. -/
def spec_escape_byte (b : Nat) : List Nat :=
  if b = 0x04 then [0x04, 0x04]
  else if b = 0x02 then [0x04, 0x06]
  else if b = 0x03 then [0x04, 0x07]
  else [b]

/-- The escaped region `E` of a payload in the words of the specification. -/
def spec_escape : List Nat → List Nat
  | [] => []
  | b :: rest => spec_escape_byte b ++ spec_escape rest

/-- The check digits in the words of the specification: `sum mod 100` as two
ASCII decimal digits, tens first. -/
def check_digits (sum : Nat) : Nat × Nat :=
  (0x30 + (sum % 100) / 10, 0x30 + (sum % 100) % 10)

/-- The two bytes of a frame that stand just before its last byte. -/
def frame_check (frame : List Nat) : Nat × Nat :=
  (frame.getD (frame.length - 3) 0, frame.getD (frame.length - 2) 0)

/-- The bytes of a frame between its first byte and its two check bytes, as
they are on the wire (still escaped). -/
def frame_region (frame : List Nat) : List Nat :=
  (frame.drop 1).take (frame.length - 4)

/-- A sum of bytes accumulated in a `uint16_t`. -/
def wire_sum (bytes : List Nat) : Nat :=
  bytes.foldl (fun sum b => (sum + b) % 65536) 0

/-! ## Sample configuration used to evaluate the code on concrete frames -/

/-- A sample environment: every LED unlit, the arrival switch closed, key 9
opens the door, floor `f` is key `f + 100`, enumerators numbered from 0. -/
def sample_env : Env where
  is_led_on := fun _ => false
  switch_is_arrive := true
  keymap_open := 9
  keymap_floor_to_key := fun f => f + 100
  run_code := fun r => match r with
    | run_stop => 0
    | run_up => 1
    | run_down => 2
  work_code := fun w => match w with
    | work_idle => 0
    | work_robot => 1
  robot_id_none := 0xff
  stack := fun _ => 0
  is_up_led_on := fun _ => false
  is_down_led_on := fun _ => false
  keymap_key_to_floor := fun key => if key < 8 then key + 1 else 0x7f
  INVALID_FLOOR := 0x7f
  floormap_dis_to_phy := fun f => f

/-- A sample `board_parameter`: controller 1, elevator 5, 20 floors. -/
def sample_param : parameters_t := ⟨1, 5, 20, [65, 66, 0]⟩

/-- The state after start-up: floor 1, idle, no robot, no checkin floor. -/
def sample_idle : State where
  elev_cur_floor := 1
  hold_door := false
  hold_cnt := 0
  run_state := run_stop
  work_state := work_idle
  xQueueFloor := none
  xArriveQueue := none
  xNotifySemaphore := false
  arrive_cb := true
  robot_id := 0xff
  checkin := DEFAULT_FLOOR
  monitor_on := false
  monitor_cnt := 0
  sent := []
  keys := []
  trace := []

/-- A state in robot work mode, assigned to robot 9. -/
def sample_robot : State :=
  { sample_idle with work_state := work_robot, robot_id := 9, monitor_on := true,
                     monitor_cnt := 3 }

/-! ## `elevator.c`: floor counting and the door-hold task -/

/-- The function `elev_decrease`.  `elev_cur_floor` is a `char`; the state
holds its bit pattern, so `--` is subtraction modulo 256. -/
def elev_decrease (env : Env) (s : State) : State :=
  let floor := (s.elev_cur_floor + 255) % 256
  let floor := if 0 = floor then (floor + 255) % 256 else floor
  let run :=
    if env.is_down_led_on floor then run_down
    else if env.is_up_led_on floor then run_up
    else run_stop
  { s with elev_cur_floor := floor, run_state := run }

/-- The function `elev_increase`; `++` on the `char` is addition modulo 256. -/
def elev_increase (env : Env) (s : State) : State :=
  let floor := (s.elev_cur_floor + 1) % 256
  let floor := if 0 = floor then (floor + 1) % 256 else floor
  let run :=
    if env.is_up_led_on floor then run_up
    else if env.is_down_led_on floor then run_down
    else run_stop
  { s with elev_cur_floor := floor, run_state := run }

/-- The function `elev_set_first_floor`. -/
def elev_set_first_floor (s : State) : State := { s with elev_cur_floor := 1 }

/-- One iteration of the endless loop of the task `vElevHold` (one tick of
1000 ms); `hold_cnt` is a `uint8_t`. -/
def vElevHold_tick (env : Env) (s : State) : State :=
  if s.hold_door then
    let s := { s with hold_cnt := (s.hold_cnt + 1) % 256 }
    if s.hold_cnt > 15 then
      { s with hold_door := false, hold_cnt := 0,
               keys := s.keys ++ [KeyAct.release env.keymap_open] }
    else s
  else s

/-! ## `elevator.c`: arrival notification -/

abbrev MAX_CHECK_CNT : Nat := 5

/-- Modelled from the spec: `robot_is_checkin` of the missing `robot.c`,
whether the floor "equals the robot's current checkin target". -/
def robot_is_checkin (floor : Nat) (s : State) : Bool := s.checkin == floor

/-- The function `elev_arrived`.  `elevator.c` calls `notify_arrive(floor)`
with the floor only; the transport selector that `notify_arrive` of
`protocol_robot.c` reads through its second parameter is the parameter
`pargs` here. -/
def elev_arrived (env : Env) (bp : parameters_t) (pargs : Bool) (floor : Nat) (s : State) :
    State :=
  if work_robot = s.work_state then
    if robot_is_checkin (env.floormap_dis_to_phy floor) s then
      if s.elev_cur_floor = floor then
        let s := notify_arrive env bp floor pargs s
        { s with xArriveQueue := some floor }
      else s
    else s
  else s

/-- The `while` loop of the task `vElevArrive`.  `given k` tells whether
`arrive_hook` gives the semaphore during wait number `k` (counted from 0), so
`xSemaphoreTake` returns `pdTRUE` when the semaphore is already available or is
given during the wait; `err_cnt` is the `uint8_t` counter.  The first argument
bounds the number of iterations; the result is `none` when it is exhausted. -/
def vElevArrive_retry (env : Env) (bp : parameters_t) (pargs : Bool) (floor : Nat)
    (given : Nat → Bool) : Nat → Nat → Nat → State → Option State
  | 0, _, _, _ => none
  | fuel + 1, k, err_cnt, s =>
    if s.xNotifySemaphore || given k then
      some { s with xNotifySemaphore := false }
    else
      let err_cnt := (err_cnt + 1) % 256
      if err_cnt > MAX_CHECK_CNT then some s
      else vElevArrive_retry env bp pargs floor given fuel (k + 1) err_cnt
        (notify_arrive env bp floor pargs s)

/-- One iteration of the endless loop of the task `vElevArrive` once an item
is in `xArriveQueue`: the floor is received and the retry loop runs (an empty
queue leaves the task blocked, with no effect). -/
def vElevArrive_iteration (env : Env) (bp : parameters_t) (pargs : Bool)
    (given : Nat → Bool) (s : State) : Option State :=
  match s.xArriveQueue with
  | none => some s
  | some floor =>
    vElevArrive_retry env bp pargs floor given (MAX_CHECK_CNT + 1) 0 0
      { s with xArriveQueue := none }

/-! ## `led_monitor.c` -/

abbrev LED_INTERVAL : Nat := 200
abbrev LED_PWD_CHECK_TIME : Nat := 6000

/-- The structure `pwd_node`: a `uint8_t` floor code and a `uint32_t` time. -/
structure pwd_node where
  pwd : Nat
  time : Nat
  deriving DecidableEq, Repr

/-- The module-level variables of `led_monitor.c`: the stored snapshot
`led_status` (`uint16_t`), the configured code `led_pwd` and the four slots
`pwds`. -/
structure Monitor where
  led_status : Nat
  led_pwd : List Nat
  pwds : List pwd_node
  deriving DecidableEq, Repr

/-- The element `pwds[i]`. -/
def pwds_get (pwds : List pwd_node) (i : Nat) : pwd_node := pwds.getD i ⟨0, 0⟩

/-- The function `is_floor_arrive`. -/
def is_floor_arrive (origin new : Nat) : Bool := 0 == (origin &&& new)

/-- The `while` loop of `bit_to_pos`; `pos` is a `uint8_t`.  The first
argument bounds the number of iterations; the result is `none` when it is
exhausted. -/
def bit_to_pos_loop : Nat → Nat → Nat → Option Nat
  | 0, _, _ => none
  | fuel + 1, data, pos =>
    if 0 = (data &&& 0x01) then bit_to_pos_loop fuel (data >>> 1) ((pos + 1) % 256)
    else some pos

/-- The function `bit_to_pos` on a `uint16_t` argument: 16 iterations reach the
lowest set bit of every nonzero argument. -/
def bit_to_pos (data : Nat) : Option Nat := bit_to_pos_loop 16 data 0

/-- The function `push_pwd_node`; the time span is multiplied in 32-bit
unsigned arithmetic. -/
def push_pwd_node (node : pwd_node) (st : Monitor × State) : Monitor × State :=
  let pwds := [pwds_get st.1.pwds 1, pwds_get st.1.pwds 2, pwds_get st.1.pwds 3, node]
  let m := { st.1 with pwds := pwds }
  if (pwds_get pwds 3).time > (pwds_get pwds 0).time then
    if (((pwds_get pwds 3).time - (pwds_get pwds 0).time) * LED_INTERVAL) % 4294967296
        < LED_PWD_CHECK_TIME then
      if (List.range 3).any (fun i => (pwds_get pwds i).pwd != m.led_pwd.getD i 0) then
        (m, st.2)
      else (m, elev_set_first_floor st.2)
    else (m, st.2)
  else (m, st.2)

/-- The body of the `do` loop of `vLedMonitor` for the changed bit
`per_changed_bit` whose position `bit_to_pos` returned as `pos`, up to the
clearing of the bit. -/
def led_changed_bit (env : Env) (bp : parameters_t) (pargs : Bool) (timestamp : Nat)
    (per_changed_bit pos : Nat) (st : Monitor × State) : Monitor × State :=
  let floor := env.keymap_key_to_floor pos
  if env.INVALID_FLOOR ≠ floor then
    if is_floor_arrive st.1.led_status per_changed_bit then
      (st.1, elev_arrived env bp pargs floor st.2)
    else
      push_pwd_node ⟨floor % 256, timestamp⟩ st
  else st

/-- The value `changed_status & ~(changed_status - 1)` stored in the
`uint16_t per_changed_bit`, the operands being promoted to 32-bit `int`. -/
def lowest_changed_bit (changed_status : Nat) : Nat :=
  (changed_status &&& (4294967295 - (changed_status - 1))) % 65536

/-- The `do ... while` loop of `vLedMonitor`, entered with a nonzero
`changed_status`.  The result holds the state and the list of the bit
positions processed, in order; it is `none` when the iteration bound (first
argument) is exhausted or `bit_to_pos` does not return. -/
def vLedMonitor_loop (env : Env) (bp : parameters_t) (pargs : Bool) (timestamp : Nat) :
    Nat → Nat → Monitor × State → List Nat → Option ((Monitor × State) × List Nat)
  | 0, _, _, _ => none
  | fuel + 1, changed_status, st, seen =>
    let per_changed_bit := lowest_changed_bit changed_status
    match bit_to_pos per_changed_bit with
    | none => none
    | some pos =>
      let st := led_changed_bit env bp pargs timestamp per_changed_bit pos st
      let changed_status := (changed_status &&& (changed_status - 1)) % 65536
      if 0 ≠ changed_status then
        vLedMonitor_loop env bp pargs timestamp fuel changed_status st (seen ++ [pos])
      else some (st, seen ++ [pos])

/-- One poll cycle of `vLedMonitor` for the snapshot `cur_status` returned by
`led_status_get`, up to the delay. -/
def vLedMonitor_cycle (env : Env) (bp : parameters_t) (pargs : Bool)
    (cur_status timestamp : Nat) (st : Monitor × State) :
    Option ((Monitor × State) × List Nat) :=
  let changed_status := cur_status ^^^ st.1.led_status
  if 0 ≠ changed_status then
    match vLedMonitor_loop env bp pargs timestamp 16 changed_status st [] with
    | none => none
    | some (st, seen) => some (({ st.1 with led_status := cur_status }, st.2), seen)
  else some (st, [])

/-- A sample `led_monitor.c` state: snapshot 0, code 1 2 3, empty window. -/
def sample_monitor : Monitor :=
  ⟨0, [1, 2, 3, 4, 0], [⟨0, 0⟩, ⟨0, 0⟩, ⟨0, 0⟩, ⟨0, 0⟩]⟩

/-! ## Runs: sequences of calls -/

/-- The value of a `char` bit pattern read as an 8-bit two's complement
number. -/
def char_value (b : Nat) : Int :=
  if b % 256 < 128 then (b % 256 : Int) else (b % 256 : Int) - 256

/-- A call of one of the three functions of `elevator.c` that write
`elev_cur_floor`. -/
inductive FloorCall where
  | increase
  | decrease
  | set_first_floor
  deriving DecidableEq, Repr

/-- The effect of one `FloorCall`, made while the surroundings are `env`. -/
def floor_call (env : Env) (c : FloorCall) (s : State) : State :=
  match c with
  | FloorCall.increase => elev_increase env s
  | FloorCall.decrease => elev_decrease env s
  | FloorCall.set_first_floor => elev_set_first_floor s

/-- A finite sequence of floor calls, each with the surroundings it is made
in, executed in order. -/
def floor_calls (calls : List (Env × FloorCall)) (s : State) : State :=
  calls.foldl (fun st c => floor_call c.1 c.2 st) s

/-- The call `elev_increase()` repeated once per element of `envs`. -/
def increase_calls (envs : List Env) (s : State) : State :=
  envs.foldl (fun st e => elev_increase e st) s

/-- The call `elev_decrease()` repeated once per element of `envs`. -/
def decrease_calls (envs : List Env) (s : State) : State :=
  envs.foldl (fun st e => elev_decrease e st) s

/-- A finite sequence of frames passed to `process_robot_data`, each with the
surroundings and the transport selector of its call, executed in order. -/
def process_frames (bp : parameters_t) (frames : List (Env × Bool × List Nat)) (s : State) :
    State :=
  frames.foldl (fun st f => (process_robot_data f.1 bp f.2.1 f.2.2 f.2.2.length st).2) s

/-- The call of `vElevHold_tick` repeated `n` times. -/
def hold_ticks (env : Env) : Nat → State → State
  | 0, s => s
  | n + 1, s => hold_ticks env n (vElevHold_tick env s)

/-! ## The status byte in the words of the specification -/

/-- The packing `dir + 4*led + 16*door + 32*reserved + 64*mode`. -/
def spec_status_byte (dir led door reserved mode : Nat) : Nat :=
  dir + 4 * led + 16 * door + 32 * reserved + 64 * mode

/-- The indicator flag in the words of the specification: off when the checkin
floor is the sentinel `0xF7` or the LED of that floor is unlit, on when it is
lit. -/
def spec_led (env : Env) (checkin : Nat) : Nat :=
  if checkin = 0xF7 ∨ env.is_led_on checkin = false then LED_OFF else LED_ON

/-- The door state "reflecting whether the door is currently held open". -/
def spec_door (s : State) : Nat := if s.hold_door then DOOR_ON else DOOR_OFF

/-! ## Predicates used to state the dispatcher claims -/

/-- The invariant "work mode idle implies robot id and checkin floor are
absent": `rid` is the reset value of the robot id, `DEFAULT_FLOOR` the reset
value of the checkin floor. -/
def idle_invariant (rid : Nat) (s : State) : Prop :=
  s.work_state = work_idle → s.robot_id = rid ∧ s.checkin = DEFAULT_FLOOR

/-- Between the states `s` and `r` exactly one message was handed to the
transport selected by `pargs`, the frame of a payload whose bytes at index 0,
1 and 2 are `a0`, `a1` and `a2`. -/
def sends_with_header (s r : State) (pargs : Bool) (a0 a1 a2 : Nat) : Prop :=
  ∃ pl : List Nat,
    r.sent = s.sent ++ [(if pargs then Channel.bt else Channel.ptl, send_data_frame pl)] ∧
    pl.getD 0 0 = a0 ∧ pl.getD 1 0 = a1 ∧ pl.getD 2 0 = a2

/-! ## Notions used to state the arrival and LED monitor claims -/

/-- The message handed to the transport by `notify_arrive(floor)` in state
`s`: the frame of `[id_ctl, id_elev, robot id, 39, current floor, status]`. -/
def arrive_message (env : Env) (bp : parameters_t) (floor : Nat) (pargs : Bool) (s : State) :
    Channel × List Nat :=
  (if pargs then Channel.bt else Channel.ptl,
    send_data_frame [bp.id_ctl, bp.id_elev, s.robot_id, CMD_NOTIFY_ARRIVE, s.elev_cur_floor,
      elev_status (env.run_code s.run_state) (if env.is_led_on floor then LED_ON else LED_OFF)
        DOOR_ON 0x00 (env.work_code s.work_state)])

/-- Position `i` holds the lowest set bit of `c`. -/
def is_lowest_bit (c i : Nat) : Prop :=
  c.testBit i = true ∧ ∀ j, j < i → c.testBit j = false

/-! ## Lemmas on lists and on the encoder -/

theorem getD_append_add (pre rest : List Nat) (k d : Nat) :
    (pre ++ rest).getD (pre.length + k) d = rest.getD k d := by
  induction pre with
  | nil => simp
  | cons a t ih =>
    have : (a :: t).length + k = (t.length + k) + 1 := by simp; omega
    rw [this]
    simpa using ih

theorem getD_append_length (pre rest : List Nat) (d : Nat) :
    (pre ++ rest).getD pre.length d = rest.getD 0 d := by
  simpa using getD_append_add pre rest 0 d

theorem send_data_step_eq (acc : List Nat × Nat) (b : Nat) :
    send_data_step acc b =
      (acc.1 ++ spec_escape_byte b,
        (spec_escape_byte b).foldl (fun sum x => (sum + x) % 65536) acc.2) := by
  unfold send_data_step spec_escape_byte
  by_cases h4 : b = 4
  · subst h4; simp
  · by_cases h2 : b = 2
    · subst h2; simp
    · by_cases h3 : b = 3
      · subst h3; simp
      · have h4' : ¬ 4 = b := fun h => h4 h.symm
        have h2' : ¬ 2 = b := fun h => h2 h.symm
        have h3' : ¬ 3 = b := fun h => h3 h.symm
        simp [h4, h2, h3, h4', h2', h3']

theorem send_data_foldl_eq (data : List Nat) (acc : List Nat × Nat) :
    data.foldl send_data_step acc =
      (acc.1 ++ spec_escape data,
        (spec_escape data).foldl (fun sum x => (sum + x) % 65536) acc.2) := by
  induction data generalizing acc with
  | nil => simp [spec_escape]
  | cons b t ih =>
    rw [List.foldl_cons, ih, send_data_step_eq]
    simp [spec_escape, List.foldl_append]

theorem send_data_loop_eq (data : List Nat) :
    send_data_loop data = (ROBOT_HEAD :: spec_escape data, wire_sum (spec_escape data)) := by
  unfold send_data_loop wire_sum
  rw [send_data_foldl_eq]
  simp

theorem send_data_frame_eq (p : List Nat) :
    send_data_frame p = ROBOT_HEAD :: (spec_escape p ++
      [wire_sum (spec_escape p) / 10 % 10 + 0x30, wire_sum (spec_escape p) % 10 + 0x30,
        ROBOT_TAIL]) := by
  simp [send_data_frame, send_data_loop_eq]

theorem wire_sum_foldl (l : List Nat) (a : Nat) :
    l.foldl (fun sum b => (sum + b) % 65536) a % 65536 = (a + l.sum) % 65536 := by
  induction l generalizing a with
  | nil => simp
  | cons b t ih => rw [List.foldl_cons, ih, List.sum_cons]; omega

theorem wire_sum_lt (l : List Nat) : wire_sum l < 65536 := by
  unfold wire_sum
  induction l using List.reverseRecOn with
  | nil => simp
  | append_singleton t x _ => rw [List.foldl_append]; simp; omega

theorem wire_sum_eq_mod (l : List Nat) : wire_sum l = l.sum % 65536 := by
  have h := wire_sum_foldl l 0
  have h2 := wire_sum_lt l
  unfold wire_sum at *
  rw [Nat.mod_eq_of_lt h2] at h
  simpa using h

theorem sum_le_of_bytes (l : List Nat) (h : ∀ b ∈ l, b < 256) : l.sum ≤ 255 * l.length := by
  induction l with
  | nil => simp
  | cons b t ih =>
    have hb := h b (by simp)
    have := ih (fun x hx => h x (by simp [hx]))
    simp only [List.sum_cons, List.length_cons]; omega

theorem spec_escape_byte_sum_le (b : Nat) (hb : b < 256) : (spec_escape_byte b).sum ≤ 255 := by
  unfold spec_escape_byte
  split_ifs
  · simp
  · simp
  · simp
  · simp; omega

theorem spec_escape_sum_le (p : List Nat) (h : ∀ b ∈ p, b < 256) :
    (spec_escape p).sum ≤ 255 * p.length := by
  induction p with
  | nil => simp [spec_escape]
  | cons b t ih =>
    have hs := spec_escape_byte_sum_le b (h b (by simp))
    have := ih (fun x hx => h x (by simp [hx]))
    simp only [spec_escape, List.sum_append, List.length_cons]; omega

theorem spec_escape_of_plain (p : List Nat)
    (h : ∀ b ∈ p, b ≠ 0x02 ∧ b ≠ 0x03 ∧ b ≠ 0x04) : spec_escape p = p := by
  induction p with
  | nil => simp [spec_escape]
  | cons b t ih =>
    have hb := h b (by simp)
    have := ih (fun x hx => h x (by simp [hx]))
    simp [spec_escape, spec_escape_byte, hb.1, hb.2.1, hb.2.2, this]

theorem spec_escape_byte_length_pos (b : Nat) : 1 ≤ (spec_escape_byte b).length := by
  unfold spec_escape_byte; split_ifs <;> simp

theorem spec_escape_length_ge (p : List Nat) : p.length ≤ (spec_escape p).length := by
  induction p with
  | nil => simp [spec_escape]
  | cons b t ih =>
    have hb := spec_escape_byte_length_pos b
    simp only [spec_escape, List.length_append, List.length_cons]; omega

theorem spec_escape_byte_no_marker (b : Nat) :
    ∀ x ∈ spec_escape_byte b, x ≠ 0x02 ∧ x ≠ 0x03 := by
  intro x hx
  unfold spec_escape_byte at hx
  split_ifs at hx with h4 h2 h3
  · simp at hx; subst hx; simp
  · simp at hx; rcases hx with rfl | rfl <;> simp
  · simp at hx; rcases hx with rfl | rfl <;> simp
  · simp at hx; subst hx; exact ⟨h2, h3⟩

theorem spec_escape_no_marker (p : List Nat) : ∀ x ∈ spec_escape p, x ≠ 0x02 ∧ x ≠ 0x03 := by
  induction p with
  | nil => simp [spec_escape]
  | cons b t ih =>
    intro x hx
    simp only [spec_escape, List.mem_append] at hx
    rcases hx with hx | hx
    · exact spec_escape_byte_no_marker b x hx
    · exact ih x hx

theorem spec_escape_bytes (p : List Nat) (h : ∀ b ∈ p, b < 256) :
    ∀ x ∈ spec_escape p, x < 256 := by
  induction p with
  | nil => simp [spec_escape]
  | cons b t ih =>
    intro x hx
    simp only [spec_escape, List.mem_append] at hx
    rcases hx with hx | hx
    · have hb := h b (by simp)
      unfold spec_escape_byte at hx
      split_ifs at hx <;> simp at hx <;> omega
    · exact ih (fun y hy => h y (by simp [hy])) x hx

theorem send_data_frame_bytes (p : List Nat) (h : ∀ b ∈ p, b < 256) :
    ∀ x ∈ send_data_frame p, x < 256 := by
  intro x hx
  rw [send_data_frame_eq] at hx
  simp only [List.mem_cons, List.mem_append, List.mem_singleton, List.not_mem_nil,
    or_false] at hx
  rcases hx with hx | hx | hx | hx | hx
  · subst hx; decide
  · exact spec_escape_bytes p h x hx
  · omega
  · omega
  · subst hx; decide

theorem frame_check_frame (mid : List Nat) (d0 d1 t : Nat) :
    frame_check (ROBOT_HEAD :: (mid ++ [d0, d1, t])) = (d0, d1) := by
  unfold frame_check
  have h3 : (ROBOT_HEAD :: (mid ++ [d0, d1, t])).length - 3 = (ROBOT_HEAD :: mid).length + 0 := by
    simp
  have h2 : (ROBOT_HEAD :: (mid ++ [d0, d1, t])).length - 2 = (ROBOT_HEAD :: mid).length + 1 := by
    simp
  have e : ROBOT_HEAD :: (mid ++ [d0, d1, t]) = (ROBOT_HEAD :: mid) ++ [d0, d1, t] := by simp
  rw [h3, h2, e, getD_append_add, getD_append_add]
  simp

/-! ## Lemmas on the decoder -/

theorem range_foldl_getD (g : Nat → Nat → Nat) (pre mid : List Nat) :
    ∀ (suf : List Nat) (a : Nat),
    (List.range mid.length).foldl (fun sum i => g sum ((pre ++ mid ++ suf).getD (i + pre.length) 0)) a
      = mid.foldl g a := by
  induction mid using List.reverseRecOn with
  | nil => intro suf a; simp
  | append_singleton t x ih =>
    intro suf a
    have hlen : (t ++ [x]).length = t.length + 1 := by simp
    rw [hlen, List.range_succ, List.foldl_append, List.foldl_append]
    have e : pre ++ (t ++ [x]) ++ suf = pre ++ t ++ ([x] ++ suf) := by simp
    have ih2 := ih ([x] ++ suf) a
    rw [e, ih2]
    have hx : (pre ++ t ++ ([x] ++ suf)).getD (t.length + pre.length) 0 = x := by
      have := getD_append_length (pre ++ t) ([x] ++ suf) 0
      simp only [List.length_append] at this
      rw [Nat.add_comm] ; simpa using this
    simp only [List.foldl_cons, List.foldl_nil, hx]

theorem sum_check_sum_frame (mid suf : List Nat) (h : suf.length = 3) :
    sum_check_sum (ROBOT_HEAD :: (mid ++ suf)) (ROBOT_HEAD :: (mid ++ suf)).length = wire_sum mid := by
  unfold sum_check_sum wire_sum
  have hl : (ROBOT_HEAD :: (mid ++ suf)).length - 4 = mid.length := by simp [h]
  rw [hl]
  have := range_foldl_getD (fun sum b => (sum + b) % 65536) [ROBOT_HEAD] mid suf 0
  simpa using this

theorem unescape_loop_done (data : List Nat) (n fuel i : Nat) (out : List Nat) (h : n ≤ i) :
    unescape_loop data n fuel i out = out := by
  cases fuel with
  | zero => rfl
  | succ f => simp [unescape_loop, Nat.not_lt.mpr h]

/-- The iteration bound of `unescape_loop` never cuts the loop short: any two
bounds of at least `n - i` give the same result, so the bound `len - 4` used by
`unescape` runs the loop to its exit test. -/
theorem unescape_loop_fuel (data : List Nat) (n : Nat) :
    ∀ (f1 f2 i : Nat) (out : List Nat), n - i ≤ f1 → n - i ≤ f2 →
      unescape_loop data n f1 i out = unescape_loop data n f2 i out := by
  intro f1
  induction f1 with
  | zero =>
    intro f2 i out h1 _
    rw [unescape_loop_done data n 0 i out (by omega), unescape_loop_done data n f2 i out (by omega)]
  | succ f ih =>
    intro f2 i out h1 h2
    by_cases hi : n ≤ i
    · rw [unescape_loop_done data n (f + 1) i out hi, unescape_loop_done data n f2 i out hi]
    · obtain ⟨g, rfl⟩ : ∃ g, f2 = g + 1 := ⟨f2 - 1, by omega⟩
      have a1 := fun o => ih g (i + 1) o (by omega) (by omega)
      have a2 := fun o => ih g (i + 2) o (by omega) (by omega)
      simp only [unescape_loop, a1, a2]

theorem unescape_loop_escape (p : List Nat) :
    ∀ (data pre suf out : List Nat) (n fuel i : Nat),
      data = pre ++ (spec_escape p ++ suf) → n = pre.length + (spec_escape p).length →
      i = pre.length → (spec_escape p).length ≤ fuel →
      unescape_loop data n fuel i out = out ++ p := by
  induction p with
  | nil =>
    intro data pre suf out n fuel i _ hn hi _
    rw [unescape_loop_done _ _ _ _ _ (by simp [hn, hi, spec_escape])]
    simp
  | cons b t ih =>
    intro data pre suf out n fuel i hd hn hi hfuel
    have hlen : (spec_escape (b :: t)).length
        = (spec_escape_byte b).length + (spec_escape t).length := by
      simp [spec_escape]
    have hb : 1 ≤ (spec_escape_byte b).length := by
      unfold spec_escape_byte; split_ifs <;> simp
    obtain ⟨f, rfl⟩ : ∃ f, fuel = f + 1 := ⟨fuel - 1, by omega⟩
    have hlt : i < n := by omega
    have hd2 : data = pre ++ (spec_escape_byte b ++ (spec_escape t ++ suf)) := by
      rw [hd]; simp [spec_escape]
    have g0 : data.getD i 0 = (spec_escape_byte b ++ (spec_escape t ++ suf)).getD 0 0 := by
      rw [hd2, hi]; exact getD_append_length _ _ _
    have g1 : data.getD (i + 1) 0 = (spec_escape_byte b ++ (spec_escape t ++ suf)).getD 1 0 := by
      rw [hd2, hi]; exact getD_append_add _ _ _ _
    rw [unescape_loop, if_pos hlt, g0, g1]
    by_cases h4 : b = 4
    · subst h4
      have hf : (spec_escape t).length ≤ f := by simp [hlen, spec_escape_byte] at hfuel; omega
      have k := ih data (pre ++ [4, 4]) suf (out ++ [4]) n f (i + 2)
        (by rw [hd2]; simp [spec_escape_byte]) (by simp [hn, hlen, spec_escape_byte]; omega)
        (by simp [hi]) hf
      simpa [spec_escape_byte] using k
    · by_cases h2 : b = 2
      · subst h2
        have hf : (spec_escape t).length ≤ f := by simp [hlen, spec_escape_byte] at hfuel; omega
        have k := ih data (pre ++ [4, 6]) suf (out ++ [2]) n f (i + 2)
          (by rw [hd2]; simp [spec_escape_byte]) (by simp [hn, hlen, spec_escape_byte]; omega)
          (by simp [hi]) hf
        simpa [spec_escape_byte] using k
      · by_cases h3 : b = 3
        · subst h3
          have hf : (spec_escape t).length ≤ f := by simp [hlen, spec_escape_byte] at hfuel; omega
          have k := ih data (pre ++ [4, 7]) suf (out ++ [3]) n f (i + 2)
            (by rw [hd2]; simp [spec_escape_byte]) (by simp [hn, hlen, spec_escape_byte]; omega)
            (by simp [hi]) hf
          simpa [spec_escape_byte] using k
        · have hf : (spec_escape t).length ≤ f := by
            simp [hlen, spec_escape_byte, h4, h2, h3] at hfuel; omega
          have k := ih data (pre ++ [b]) suf (out ++ [b]) n f (i + 1)
            (by rw [hd2]; simp [spec_escape_byte, h4, h2, h3])
            (by simp [hn, hlen, spec_escape_byte, h4, h2, h3]; omega)
            (by simp [hi]) hf
          have h4' : ¬ 4 = b := fun h => h4 h.symm
          simpa [spec_escape_byte, h4, h2, h3, h4'] using k

theorem decode_send_data_frame (p : List Nat) :
    decode_frame (send_data_frame p) (send_data_frame p).length = some p := by
  have hf := send_data_frame_eq p
  generalize hd0 : wire_sum (spec_escape p) / 10 % 10 + 0x30 = d0 at hf
  generalize hd1 : wire_sum (spec_escape p) % 10 + 0x30 = d1 at hf
  have hlen : (send_data_frame p).length = (spec_escape p).length + 4 := by simp [hf]
  have hhead : (send_data_frame p).getD 0 0 = ROBOT_HEAD := by simp [hf]
  have htail : (send_data_frame p).getD ((send_data_frame p).length - 1) 0 = ROBOT_TAIL := by
    have e : send_data_frame p = (ROBOT_HEAD :: spec_escape p ++ [d0, d1]) ++ [ROBOT_TAIL] := by
      simp [hf]
    have hl : (send_data_frame p).length - 1 = (ROBOT_HEAD :: spec_escape p ++ [d0, d1]).length := by
      simp [hlen]
    rw [hl, e, getD_append_length]; simp
  have hsum : sum_check_sum (send_data_frame p) (send_data_frame p).length
      = wire_sum (spec_escape p) := by
    rw [hf]; exact sum_check_sum_frame _ _ (by simp)
  have hchk : frame_check (send_data_frame p) = (d0, d1) := by
    rw [hf]; exact frame_check_frame _ _ _ _
  have hsc : sum_check (send_data_frame p) (send_data_frame p).length = true := by
    unfold frame_check at hchk
    simp only [Prod.mk.injEq] at hchk
    subst hd0 hd1
    simp only [sum_check, hsum, hchk.1, hchk.2, beq_self_eq_true, Bool.and_self]
  have hun : unescape (send_data_frame p) (send_data_frame p).length = p := by
    unfold unescape
    have := unescape_loop_escape p ((send_data_frame p).drop 1) [] [d0, d1, ROBOT_TAIL] []
      ((send_data_frame p).length - 4) ((send_data_frame p).length - 4) 0
      (by simp [hf]) (by simp [hlen]) (by simp) (by simp [hlen])
    simpa using this
  unfold decode_frame
  rw [hhead, htail, hsc, hun]
  simp

theorem process_robot_data_of_decode (env : Env) (bp : parameters_t) (pargs : Bool)
    (data : List Nat) (len : Nat) (s : State) (out : List Nat)
    (h : decode_frame data len = some out) :
    process_robot_data env bp pargs data len s
      = (true, dispatch_loop env bp pargs (payload_array env out) (out.length % 256)
          cmd_handles s) := by
  unfold decode_frame at h
  unfold process_robot_data
  by_cases hh : ROBOT_HEAD ≠ data.getD 0 0
  · rw [if_pos hh] at h; cases h
  · rw [if_neg hh] at h ⊢
    by_cases ht : ROBOT_TAIL = data.getD (len - 1) 0
    · rw [if_pos ht] at h ⊢
      by_cases hs : sum_check data len = true
      · rw [if_pos hs] at h ⊢
        cases h; rfl
      · rw [if_neg hs] at h; cases h
    · rw [if_neg ht] at h; cases h

theorem process_robot_data_of_reject (env : Env) (bp : parameters_t) (pargs : Bool)
    (data : List Nat) (len : Nat) (s : State) (h : decode_frame data len = none) :
    (process_robot_data env bp pargs data len s).2 = s := by
  unfold decode_frame at h
  unfold process_robot_data
  by_cases hh : ROBOT_HEAD ≠ data.getD 0 0
  · rw [if_pos hh]
  · rw [if_neg hh] at h ⊢
    by_cases ht : ROBOT_TAIL = data.getD (len - 1) 0
    · rw [if_pos ht] at h ⊢
      by_cases hs : sum_check data len = true
      · rw [if_pos hs] at h; cases h
      · rw [if_neg hs]
    · rw [if_neg ht]

theorem sum_check_sum_region (data : List Nat) (h4 : 4 ≤ data.length) :
    sum_check_sum data data.length = wire_sum (frame_region data) := by
  cases data with
  | nil => simp at h4
  | cons a rest =>
    unfold sum_check_sum wire_sum frame_region
    have hl : (a :: rest).length - 4 = (rest.take (rest.length - 3)).length := by
      simp
    have e : a :: rest = [a] ++ rest.take (rest.length - 3) ++ rest.drop (rest.length - 3) := by
      simp
    have hr : (List.drop 1 (a :: rest)).take ((a :: rest).length - 4)
        = rest.take (rest.length - 3) := by simp
    rw [hr, hl]
    have := range_foldl_getD (fun sum b => (sum + b) % 65536) [a] (rest.take (rest.length - 3))
      (rest.drop (rest.length - 3)) 0
    rw [← e] at this
    simpa using this

theorem frame_region_sum_lt (data : List Nat) (hlen : data.length ≤ 255)
    (hbytes : ∀ b ∈ data, b < 256) : (frame_region data).sum < 65536 := by
  have hb : ∀ b ∈ frame_region data, b < 256 := by
    intro b hb
    unfold frame_region at hb
    exact hbytes b (List.mem_of_mem_drop (List.mem_of_mem_take hb))
  have h1 := sum_le_of_bytes _ hb
  have h2 : (frame_region data).length ≤ 255 := by
    unfold frame_region; simp; omega
  have : 255 * (frame_region data).length ≤ 255 * 255 := Nat.mul_le_mul_left _ h2
  omega

theorem sum_check_iff (data : List Nat) (h4 : 4 ≤ data.length) (hlen : data.length ≤ 255)
    (hbytes : ∀ b ∈ data, b < 256) :
    sum_check data data.length = true ↔ frame_check data = check_digits (frame_region data).sum := by
  have hlt := frame_region_sum_lt data hlen hbytes
  unfold sum_check frame_check check_digits
  rw [sum_check_sum_region data h4, wire_sum_eq_mod, Nat.mod_eq_of_lt hlt]
  simp only [Bool.and_eq_true, beq_iff_eq, Prod.mk.injEq]
  constructor
  · rintro ⟨h1, h2⟩; constructor <;> omega
  · rintro ⟨h1, h2⟩; constructor <;> omega

/-! ## Lemmas on the dispatcher -/

theorem payload_array_of_lt (env : Env) (out : List Nat) (i : Nat) (h : i < out.length) :
    payload_array env out i = out.getD i 0 := by
  unfold payload_array
  rw [List.getD_eq_getElem?_getD, List.getD_eq_getElem?_getD, List.getElem?_eq_getElem h]
  rfl

theorem dispatch_loop_wrong_address (env : Env) (bp : parameters_t) (pargs : Bool)
    (payload : Nat → Nat) (len : Nat) (s : State)
    (hbad : payload 0 ≠ bp.id_ctl ∨ payload 2 ≠ bp.id_elev) (table : List cmd_handle) :
    dispatch_loop env bp pargs payload len table s = s := by
  induction table with
  | nil => rfl
  | cons h rest ih =>
    unfold dispatch_loop
    by_cases hc : payload 3 = h.cmd
    · rw [if_pos hc]
      unfold dispatch_entry
      have : ¬ (payload 0 = bp.id_ctl ∧ payload 2 = bp.id_elev) := by
        rintro ⟨h0, h2⟩
        rcases hbad with hb | hb
        · exact hb h0
        · exact hb h2
      simp only [if_neg this]
    · rw [if_neg hc]; exact ih

theorem dispatch_entry_busy (env : Env) (bp : parameters_t) (pargs : Bool) (h : cmd_handle)
    (payload : Nat → Nat) (len : Nat) (s : State)
    (hctl : payload 0 = bp.id_ctl) (helev : payload 2 = bp.id_elev)
    (hmode : s.work_state = work_robot) (hid : payload 1 ≠ s.robot_id) :
    dispatch_entry env bp pargs h payload len s = notify_busy env bp (payload 1) pargs s := by
  unfold dispatch_entry
  simp only [hctl, helev, and_self, if_true, elev_state_work, hmode, robot_id_get, if_neg hid]

theorem dispatch_loop_busy (env : Env) (bp : parameters_t) (pargs : Bool)
    (payload : Nat → Nat) (len : Nat) (s : State)
    (hctl : payload 0 = bp.id_ctl) (helev : payload 2 = bp.id_elev)
    (hmode : s.work_state = work_robot) (hid : payload 1 ≠ s.robot_id)
    (table : List cmd_handle) :
    dispatch_loop env bp pargs payload len table s
      = if payload 3 ∈ table.map (fun h => h.cmd) then notify_busy env bp (payload 1) pargs s
        else s := by
  induction table with
  | nil => simp [dispatch_loop]
  | cons h rest ih =>
    unfold dispatch_loop
    by_cases hc : payload 3 = h.cmd
    · rw [if_pos hc, dispatch_entry_busy env bp pargs h payload len s hctl helev hmode hid]
      simp [hc]
    · rw [if_neg hc, ih]
      simp [hc]

theorem cmd_handles_cmds :
    cmd_handles.map (fun h => h.cmd) = [50, 52, 30, 32, 34, 36, 40, 41] := rfl

theorem dispatch_loop_checkin (env : Env) (bp : parameters_t) (pargs : Bool)
    (payload : Nat → Nat) (len : Nat) (s : State) (hcmd : payload 3 = CMD_CHECKIN) :
    dispatch_loop env bp pargs payload len cmd_handles s
      = dispatch_entry env bp pargs ⟨CMD_CHECKIN, process_elev_checkin⟩ payload len s := by
  simp [cmd_handles, dispatch_loop, hcmd]

/-! ## Wire codec: claims C1, C2, C5 -/

/-- Claim C1. Round trip: for every payload of bytes whose frame fits the
33-byte buffer of `send_data`, the decoding part of `process_robot_data` (head
test, tail test, `sum_check`, unescape loop) accepts the frame built by
`send_data` and yields exactly the payload; the payload then also fits the
30-byte buffer of the decoder and every byte of the frame is a byte. -/
theorem C1_roundtrip (p : List Nat) (hbytes : ∀ b ∈ p, b < 256)
    (hfit : (send_data_frame p).length ≤ 33) :
    decode_frame (send_data_frame p) (send_data_frame p).length = some p ∧
    p.length ≤ 30 ∧ (∀ x ∈ send_data_frame p, x < 256) := by
  refine ⟨decode_send_data_frame p, ?_, send_data_frame_bytes p hbytes⟩
  have h1 := spec_escape_length_ge p
  rw [send_data_frame_eq] at hfit
  simp only [List.length_cons, List.length_append, List.length_nil] at hfit
  omega

/-- Witness of C1 at a payload that contains all three reserved bytes. -/
theorem C1_roundtrip_witness :
    decode_frame (send_data_frame [0x02, 0x03, 0x04, 0x00, 0xff, 0x30])
        (send_data_frame [0x02, 0x03, 0x04, 0x00, 0xff, 0x30]).length
      = some [0x02, 0x03, 0x04, 0x00, 0xff, 0x30] :=
  (C1_roundtrip [0x02, 0x03, 0x04, 0x00, 0xff, 0x30] (by decide) (by decide)).1

/-- Counterexample to C2 as stated: for the one-byte payload `0x02` the frame
is `02 04 06 31 30 03`, so the check bytes are the digits of 10 (the sum of the
escaped bytes `04 06`), while the digits of the unescaped sum 2 are `30 32`. -/
theorem C2_counterexample :
    send_data_frame [0x02] = [0x02, 0x04, 0x06, 0x31, 0x30, 0x03] ∧
    frame_check (send_data_frame [0x02]) = (0x31, 0x30) ∧
    check_digits ([0x02] : List Nat).sum = (0x30, 0x32) ∧
    frame_check (send_data_frame [0x02]) ≠ check_digits ([0x02] : List Nat).sum := by
  decide

/-- Claim C2, amended. For every payload (bytes, length at most 255) the two
check bytes that `send_data` places before the tail are the ASCII digits, tens
first, of the sum modulo 100 of the ESCAPED bytes it wrote between head and
check bytes; they are the digits of the sum of the payload itself when the
payload contains none of `0x02`, `0x03`, `0x04`. -/
theorem C2_check_digits (p : List Nat) (hbytes : ∀ b ∈ p, b < 256) (hlen : p.length ≤ 255) :
    frame_check (send_data_frame p) = check_digits (spec_escape p).sum ∧
    ((∀ b ∈ p, b ≠ 0x02 ∧ b ≠ 0x03 ∧ b ≠ 0x04) →
      frame_check (send_data_frame p) = check_digits p.sum) := by
  have h1 : frame_check (send_data_frame p) = check_digits (spec_escape p).sum := by
    rw [send_data_frame_eq, frame_check_frame, wire_sum_eq_mod]
    have hs := spec_escape_sum_le p hbytes
    have hlt : (spec_escape p).sum < 65536 := by
      have : 255 * p.length ≤ 255 * 255 := Nat.mul_le_mul_left _ hlen
      omega
    rw [Nat.mod_eq_of_lt hlt]
    unfold check_digits
    simp only [Prod.mk.injEq]
    constructor <;> omega
  refine ⟨h1, fun hplain => ?_⟩
  rw [h1, spec_escape_of_plain p hplain]

/-- Witness of the amended C2 at a payload with all three reserved bytes and
at a payload with none. -/
theorem C2_check_digits_witness :
    frame_check (send_data_frame [0x01, 0x02, 0x03, 0x04, 0xff])
      = check_digits (spec_escape [0x01, 0x02, 0x03, 0x04, 0xff]).sum ∧
    frame_check (send_data_frame [0x01, 0x09, 0x05, 0x32])
      = check_digits ([0x01, 0x09, 0x05, 0x32] : List Nat).sum :=
  ⟨(C2_check_digits [0x01, 0x02, 0x03, 0x04, 0xff] (by decide) (by decide)).1,
   (C2_check_digits [0x01, 0x09, 0x05, 0x32] (by decide) (by decide)).2 (by decide)⟩

/-- Claim C5. For every payload the frame built by `send_data` is
`0x02 ++ E ++ [d1, d2] ++ 0x03` with `E` the escaped payload in the words of
the specification and `d1`, `d2` ASCII digits; neither `0x02` nor `0x03`
occurs in `E` or among the check bytes, that is, at any position other than
the first and the last of the frame. -/
theorem C5_frame_form (p : List Nat) :
    ∃ d1 d2, send_data_frame p = [0x02] ++ spec_escape p ++ [d1, d2] ++ [0x03] ∧
      (0x30 ≤ d1 ∧ d1 ≤ 0x39 ∧ 0x30 ≤ d2 ∧ d2 ≤ 0x39) ∧
      (∀ x ∈ spec_escape p ++ [d1, d2], x ≠ 0x02 ∧ x ≠ 0x03) ∧
      (∀ i, 0 < i → i + 1 < (send_data_frame p).length →
        (send_data_frame p).getD i 0 ≠ 0x02 ∧ (send_data_frame p).getD i 0 ≠ 0x03) := by
  refine ⟨wire_sum (spec_escape p) / 10 % 10 + 0x30, wire_sum (spec_escape p) % 10 + 0x30, ?_⟩
  have hf := send_data_frame_eq p
  have hr0 : 0x30 ≤ wire_sum (spec_escape p) / 10 % 10 + 0x30 ∧
      wire_sum (spec_escape p) / 10 % 10 + 0x30 ≤ 0x39 := by constructor <;> omega
  have hr1 : 0x30 ≤ wire_sum (spec_escape p) % 10 + 0x30 ∧
      wire_sum (spec_escape p) % 10 + 0x30 ≤ 0x39 := by constructor <;> omega
  generalize wire_sum (spec_escape p) / 10 % 10 + 0x30 = d0 at hf hr0 ⊢
  generalize wire_sum (spec_escape p) % 10 + 0x30 = d1 at hf hr1 ⊢
  have hmem : ∀ x ∈ spec_escape p ++ [d0, d1], x ≠ 0x02 ∧ x ≠ 0x03 := by
    intro x hx
    simp only [List.mem_append, List.mem_cons, List.mem_singleton, List.not_mem_nil,
      or_false] at hx
    rcases hx with hx | hx | hx
    · exact spec_escape_no_marker p x hx
    · subst hx; constructor <;> omega
    · subst hx; constructor <;> omega
  refine ⟨by simp [hf], ⟨hr0.1, hr0.2, hr1.1, hr1.2⟩, hmem, ?_⟩
  intro i hi hlt
  have e : send_data_frame p
      = [ROBOT_HEAD] ++ ((spec_escape p ++ [d0, d1]) ++ [ROBOT_TAIL]) := by
    simp [hf]
  obtain ⟨k, rfl⟩ : ∃ k, i = [ROBOT_HEAD].length + k := ⟨i - 1, by simp; omega⟩
  have hk : k < (spec_escape p ++ [d0, d1]).length := by
    have : (send_data_frame p).length = (spec_escape p ++ [d0, d1]).length + 2 := by
      rw [e]; simp
    simp at this hlt ⊢; omega
  rw [e, getD_append_add]
  have hget : ((spec_escape p ++ [d0, d1]) ++ [ROBOT_TAIL]).getD k 0
      = (spec_escape p ++ [d0, d1])[k] := by
    rw [List.getD_eq_getElem?_getD, List.getElem?_append_left hk, List.getElem?_eq_getElem hk]
    rfl
  rw [hget]
  exact hmem _ (List.getElem_mem hk)

/-! ## Frame validation: claims C3, C4, C6 -/

/-- Counterexample to C3 as stated: the frame `02 01 04 06 05 32 07 07 38 30 03`
has a correct head and tail and unescapes to `01 02 05 32 07 07`, whose sum 72
does not give the check bytes `38 30`; the code nevertheless accepts it (its
check bytes are the digits of 80, the sum of the escaped bytes) and, from the
idle state, runs the APPLY handler and sends a reply. -/
theorem C3_counterexample :
    List.getD [0x02, 0x01, 0x04, 0x06, 0x05, 0x32, 0x07, 0x07, 0x38, 0x30, 0x03] 0 0 = 0x02 ∧
    List.getD [0x02, 0x01, 0x04, 0x06, 0x05, 0x32, 0x07, 0x07, 0x38, 0x30, 0x03] 10 0 = 0x03 ∧
    unescape [0x02, 0x01, 0x04, 0x06, 0x05, 0x32, 0x07, 0x07, 0x38, 0x30, 0x03] 11
      = [0x01, 0x02, 0x05, 0x32, 0x07, 0x07] ∧
    frame_check [0x02, 0x01, 0x04, 0x06, 0x05, 0x32, 0x07, 0x07, 0x38, 0x30, 0x03]
      ≠ check_digits (unescape
          [0x02, 0x01, 0x04, 0x06, 0x05, 0x32, 0x07, 0x07, 0x38, 0x30, 0x03] 11).sum ∧
    (process_robot_data sample_env sample_param false
      [0x02, 0x01, 0x04, 0x06, 0x05, 0x32, 0x07, 0x07, 0x38, 0x30, 0x03] 11 sample_idle).2.trace
      = [CMD_APPLY] ∧
    (process_robot_data sample_env sample_param false
      [0x02, 0x01, 0x04, 0x06, 0x05, 0x32, 0x07, 0x07, 0x38, 0x30, 0x03] 11 sample_idle).2.sent
      = [(Channel.ptl,
          [0x02, 0x01, 0x05, 0x04, 0x06, 0x33, 0x01, 0x07, 0x14, 0x39, 0x35, 0x03])] := by
  decide

/-- Claim C3, amended. For every frame (4 to 255 bytes) with correct head and
tail, `process_robot_data` rejects it, leaving the whole state unchanged (no
handler in the trace, nothing sent), whenever its two bytes before the tail
differ from the ASCII tens and ones digits of the sum modulo 100 of the bytes
between head and check bytes AS RECEIVED, that is, still escaped. -/
theorem C3_reject (env : Env) (bp : parameters_t) (pargs : Bool) (data : List Nat) (s : State)
    (hhead : data.getD 0 0 = ROBOT_HEAD)
    (htail : data.getD (data.length - 1) 0 = ROBOT_TAIL)
    (h4 : 4 ≤ data.length) (hlen : data.length ≤ 255) (hbytes : ∀ b ∈ data, b < 256)
    (hbad : frame_check data ≠ check_digits (frame_region data).sum) :
    process_robot_data env bp pargs data data.length s = (true, s) := by
  have hs : ¬ sum_check data data.length = true :=
    fun h => hbad ((sum_check_iff data h4 hlen hbytes).mp h)
  unfold process_robot_data
  rw [if_neg (fun h => h hhead.symm), if_pos htail.symm, if_neg hs]

/-- Witness of the amended C3: the frame of the counterexample with the check
bytes `37 32` (the digits of the unescaped sum) is dropped. -/
theorem C3_reject_witness :
    process_robot_data sample_env sample_param false
      [0x02, 0x01, 0x04, 0x06, 0x05, 0x32, 0x07, 0x07, 0x37, 0x32, 0x03] 11 sample_idle
      = (true, sample_idle) :=
  C3_reject sample_env sample_param false
    [0x02, 0x01, 0x04, 0x06, 0x05, 0x32, 0x07, 0x07, 0x37, 0x32, 0x03] sample_idle
    (by decide) (by decide) (by decide) (by decide) (by decide) (by decide)

/-- Claim C4. For every frame of at least 4 bytes whose first byte is not
`0x02` or whose last byte is not `0x03`, `process_robot_data` leaves the whole
state unchanged: no handler is traced, nothing is sent, and work mode, robot
id, checkin floor, hold flag and counter, floor and direction are as before. -/
theorem C4_drop (env : Env) (bp : parameters_t) (pargs : Bool) (data : List Nat) (s : State)
    (_h4 : 4 ≤ data.length)
    (hbad : data.getD 0 0 ≠ 0x02 ∨ data.getD (data.length - 1) 0 ≠ 0x03) :
    (process_robot_data env bp pargs data data.length s).2 = s := by
  apply process_robot_data_of_reject
  unfold decode_frame
  by_cases hh : ROBOT_HEAD ≠ data.getD 0 0
  · rw [if_pos hh]
  · rw [if_neg hh]
    have hh2 : data.getD 0 0 = 0x02 := (Classical.not_not.mp hh).symm
    have ht : ¬ ROBOT_TAIL = data.getD (data.length - 1) 0 := by
      rcases hbad with h | h
      · exact absurd hh2 h
      · exact fun e => h e.symm
    rw [if_neg ht]

/-- Witness of C4: an otherwise valid APPLY frame with a wrong head in idle
mode, and with a wrong tail in robot mode. -/
theorem C4_drop_witness :
    (process_robot_data sample_env sample_param false
      [0x01, 0x01, 0x09, 0x05, 0x32, 0x07, 0x07, 0x37, 0x39, 0x03] 10 sample_idle).2
      = sample_idle ∧
    (process_robot_data sample_env sample_param false
      [0x02, 0x01, 0x09, 0x05, 0x32, 0x07, 0x07, 0x37, 0x39, 0x04] 10 sample_robot).2
      = sample_robot :=
  ⟨C4_drop sample_env sample_param false
      [0x01, 0x01, 0x09, 0x05, 0x32, 0x07, 0x07, 0x37, 0x39, 0x03] sample_idle
      (by decide) (by decide),
   C4_drop sample_env sample_param false
      [0x02, 0x01, 0x09, 0x05, 0x32, 0x07, 0x07, 0x37, 0x39, 0x04] sample_robot
      (by decide) (by decide)⟩

/-- Claim C6, the code at a failing input. The 35-byte frame
`02 01 09 05 32 00*27 36 35 03` has valid head, tail and check bytes; the
unescape loop writes 31 bytes through `pdata` (one more than `payload[30]`
holds) and the frame is not rejected: from the idle state the APPLY handler
runs and one reply is sent. -/
theorem C6_overflow :
    decode_frame ([0x02, 0x01, 0x09, 0x05, 0x32] ++ List.replicate 27 0x00 ++ [0x36, 0x35, 0x03])
        35
      = some ([0x01, 0x09, 0x05, 0x32] ++ List.replicate 27 0x00) ∧
    ([0x01, 0x09, 0x05, 0x32] ++ List.replicate 27 0x00).length = 31 ∧
    (process_robot_data sample_env sample_param false
      ([0x02, 0x01, 0x09, 0x05, 0x32] ++ List.replicate 27 0x00 ++ [0x36, 0x35, 0x03]) 35
      sample_idle).2.trace = [CMD_APPLY] ∧
    (process_robot_data sample_env sample_param false
      ([0x02, 0x01, 0x09, 0x05, 0x32] ++ List.replicate 27 0x00 ++ [0x36, 0x35, 0x03]) 35
      sample_idle).2.sent.length = 1 := by
  decide

/-! ## Gating in the dispatcher: claims C7, C8, C9, C10 -/

/-- Claim C7. Address gating: for every accepted frame whose decoded
controller id `payload[0]` differs from `board_parameter.id_ctl` or whose
decoded elevator id `payload[2]` differs from `board_parameter.id_elev`,
`process_robot_data` leaves the whole state unchanged (no handler traced,
nothing sent), in every work mode and for every command byte. -/
theorem C7_address (env : Env) (bp : parameters_t) (pargs : Bool) (data out : List Nat)
    (s : State) (hdec : decode_frame data data.length = some out)
    (hbad : payload_array env out 0 ≠ bp.id_ctl ∨ payload_array env out 2 ≠ bp.id_elev) :
    process_robot_data env bp pargs data data.length s = (true, s) := by
  rw [process_robot_data_of_decode env bp pargs data data.length s out hdec,
    dispatch_loop_wrong_address env bp pargs _ _ s hbad]

/-- Witness of C7: an APPLY frame for controller 7 in idle mode and a CHECKIN
frame for elevator 6 in robot mode, the device being controller 1,
elevator 5. -/
theorem C7_address_witness :
    process_robot_data sample_env sample_param false
        [0x02, 0x07, 0x09, 0x05, 0x32, 0x07, 0x07, 0x38, 0x35, 0x03] 10 sample_idle
      = (true, sample_idle) ∧
    process_robot_data sample_env sample_param true
        [0x02, 0x01, 0x09, 0x06, 0x1e, 0x07, 0x07, 0x36, 0x30, 0x03] 10 sample_robot
      = (true, sample_robot) :=
  ⟨C7_address sample_env sample_param false
      [0x02, 0x07, 0x09, 0x05, 0x32, 0x07, 0x07, 0x38, 0x35, 0x03]
      [0x07, 0x09, 0x05, 0x32, 0x07, 0x07] sample_idle (by decide) (by decide),
   C7_address sample_env sample_param true
      [0x02, 0x01, 0x09, 0x06, 0x1e, 0x07, 0x07, 0x36, 0x30, 0x03]
      [0x01, 0x09, 0x06, 0x1e, 0x07, 0x07] sample_robot (by decide) (by decide)⟩

/-- Claim C8. Occupancy gating: in robot work mode with assigned robot id `A`,
for every accepted, correctly addressed CHECKIN frame whose robot id `B`
differs from `A`, `process_robot_data` appends exactly one message to what was
sent, the frame of the BUSY payload
`[id_ctl, id_elev, B, 55, current floor, A, status]`, and changes nothing else
of the state. -/
theorem C8_busy (env : Env) (bp : parameters_t) (pargs : Bool) (data out : List Nat)
    (s : State) (hdec : decode_frame data data.length = some out)
    (hctl : payload_array env out 0 = bp.id_ctl) (helev : payload_array env out 2 = bp.id_elev)
    (hcmd : payload_array env out 3 = CMD_CHECKIN)
    (hmode : s.work_state = work_robot) (hid : payload_array env out 1 ≠ s.robot_id) :
    process_robot_data env bp pargs data data.length s
      = (true, { s with sent := s.sent ++
          [(if pargs then Channel.bt else Channel.ptl,
            send_data_frame [bp.id_ctl, bp.id_elev, payload_array env out 1, 55,
              s.elev_cur_floor, s.robot_id,
              elev_status (env.run_code s.run_state) (led_flag env s.checkin) DOOR_ON 0
                (env.work_code work_robot)])] }) := by
  rw [process_robot_data_of_decode env bp pargs data data.length s out hdec,
    dispatch_loop_busy env bp pargs _ _ s hctl helev hmode hid, cmd_handles_cmds, hcmd]
  simp [notify_busy, busy_payload, send_data, elev_state_run, elev_state_work, robot_checkin_get,
    elev_floor, robot_id_get, hmode]

/-- Witness of C8: robot 8 checks in while the elevator is assigned to
robot 9. -/
theorem C8_busy_witness :
    process_robot_data sample_env sample_param false
        [0x02, 0x01, 0x08, 0x05, 0x1e, 0x07, 0x00, 0x35, 0x31, 0x03] 10 sample_robot
      = (true, { sample_robot with sent :=
          [(Channel.ptl, send_data_frame [0x01, 0x05, 0x08, 55, 0x01, 0x09, 0x54])] }) :=
  C8_busy sample_env sample_param false
    [0x02, 0x01, 0x08, 0x05, 0x1e, 0x07, 0x00, 0x35, 0x31, 0x03]
    [0x01, 0x08, 0x05, 0x1e, 0x07, 0x00] sample_robot
    (by decide) (by decide) (by decide) (by decide) (by decide) (by decide)

/-- Claim C9. CHECKIN from the assigned robot (robot mode, correctly addressed,
decoded payload of at least 6 bytes, floor argument `f = payload[4]`): when
`0 < f ≤ total_floor` the handler sends one CHECKIN_REPLY (code 31) that echoes
`payload[4]` and `payload[5]`, records `f` as the checkin floor and posts the
key of floor `f` to the floor queue; otherwise nothing is sent and checkin
floor and floor queue are unchanged.  In both cases the dispatcher has reset
the robot monitor and called the handler. -/
theorem C9_checkin (env : Env) (bp : parameters_t) (pargs : Bool) (data out : List Nat)
    (s : State) (hdec : decode_frame data data.length = some out)
    (hlen : 6 ≤ out.length)
    (hctl : out.getD 0 0 = bp.id_ctl) (helev : out.getD 2 0 = bp.id_elev)
    (hcmd : out.getD 3 0 = CMD_CHECKIN)
    (hmode : s.work_state = work_robot) (hid : out.getD 1 0 = s.robot_id) :
    ((0 < out.getD 4 0 ∧ out.getD 4 0 ≤ bp.total_floor) →
      process_robot_data env bp pargs data data.length s
        = (true, { s with
            monitor_cnt := 0
            trace := s.trace ++ [CMD_CHECKIN]
            sent := s.sent ++ [(if pargs then Channel.bt else Channel.ptl,
              send_data_frame [bp.id_ctl, bp.id_elev, out.getD 1 0, CMD_CHECKIN_REPLY,
                out.getD 4 0, out.getD 5 0])]
            checkin := out.getD 4 0
            xQueueFloor := some (env.keymap_floor_to_key (out.getD 4 0)) })) ∧
    (¬ (0 < out.getD 4 0 ∧ out.getD 4 0 ≤ bp.total_floor) →
      process_robot_data env bp pargs data data.length s
        = (true, { s with monitor_cnt := 0, trace := s.trace ++ [CMD_CHECKIN] })) := by
  have p0 := payload_array_of_lt env out 0 (by omega)
  have p1 := payload_array_of_lt env out 1 (by omega)
  have p2 := payload_array_of_lt env out 2 (by omega)
  have p3 := payload_array_of_lt env out 3 (by omega)
  have p4 := payload_array_of_lt env out 4 (by omega)
  have p5 := payload_array_of_lt env out 5 (by omega)
  rw [process_robot_data_of_decode env bp pargs data data.length s out hdec,
    dispatch_loop_checkin env bp pargs _ _ s (by rw [p3, hcmd])]
  unfold dispatch_entry
  simp only [p0, p1, p2, p3, p4, p5, hctl, helev, hcmd, hid, and_self, if_true, elev_state_work,
    hmode, robot_id_get, call_handler, process_elev_checkin, robot_monitor_reset]
  generalize out.getD 4 0 = f
  generalize out.getD 5 0 = g
  constructor
  · intro hf
    simp [hf, send_data, robot_checkin_set, elev_go]
  · intro hf
    have hf2 : ¬ (f > 0 ∧ f ≤ bp.total_floor) := hf
    rw [if_neg hf2]
    simp

/-- Witness of C9: robot 9, the assigned robot, checks in for floor 7 of 20
(replied, recorded, key 107 queued) and for floor 21 (ignored). -/
theorem C9_checkin_witness :
    process_robot_data sample_env sample_param false
        [0x02, 0x01, 0x09, 0x05, 0x1e, 0x07, 0x00, 0x35, 0x32, 0x03] 10 sample_robot
      = (true, { sample_robot with
          monitor_cnt := 0
          trace := [CMD_CHECKIN]
          sent := [(Channel.ptl, send_data_frame [0x01, 0x05, 0x09, 31, 0x07, 0x00])]
          checkin := 7
          xQueueFloor := some 107 }) ∧
    process_robot_data sample_env sample_param false
        [0x02, 0x01, 0x09, 0x05, 0x1e, 0x15, 0x00, 0x36, 0x36, 0x03] 10 sample_robot
      = (true, { sample_robot with monitor_cnt := 0, trace := [CMD_CHECKIN] }) :=
  ⟨(C9_checkin sample_env sample_param false
      [0x02, 0x01, 0x09, 0x05, 0x1e, 0x07, 0x00, 0x35, 0x32, 0x03]
      [0x01, 0x09, 0x05, 0x1e, 0x07, 0x00] sample_robot
      (by decide) (by decide) (by decide) (by decide) (by decide) (by decide) (by decide)).1
      (by decide),
   (C9_checkin sample_env sample_param false
      [0x02, 0x01, 0x09, 0x05, 0x1e, 0x15, 0x00, 0x36, 0x36, 0x03]
      [0x01, 0x09, 0x05, 0x1e, 0x15, 0x00] sample_robot
      (by decide) (by decide) (by decide) (by decide) (by decide) (by decide) (by decide)).2
      (by decide)⟩

/-- Counterexample to C10 as stated: in robot mode assigned to robot 9, the
accepted, correctly addressed frame `02 01 08 05 27 35 33 03` from robot 8
carries the command byte 39, which is not in `cmd_handles`; nothing is sent
and the state is unchanged. -/
theorem C10_counterexample :
    decode_frame [0x02, 0x01, 0x08, 0x05, 0x27, 0x35, 0x33, 0x03] 8
      = some [0x01, 0x08, 0x05, 0x27] ∧
    sample_robot.work_state = work_robot ∧ sample_robot.robot_id = 0x09 ∧
    sample_param.id_ctl = 0x01 ∧ sample_param.id_elev = 0x05 ∧
    process_robot_data sample_env sample_param false
        [0x02, 0x01, 0x08, 0x05, 0x27, 0x35, 0x33, 0x03] 8 sample_robot
      = (true, sample_robot) ∧
    (process_robot_data sample_env sample_param false
        [0x02, 0x01, 0x08, 0x05, 0x27, 0x35, 0x33, 0x03] 8 sample_robot).2.sent = [] := by
  decide

/-- Claim C10, amended. In robot work mode with assigned robot id `A`, for
every accepted, correctly addressed frame whose robot id `B` differs from `A`:
when the command byte `payload[3]` is one of the eight commands of
`cmd_handles`, `process_robot_data` appends exactly one message to what was
sent, the frame of the BUSY payload
`[id_ctl, id_elev, B, 55, current floor, A, status]`, and changes nothing else
of the state; for every other value of the command byte it sends nothing and
leaves the state unchanged. -/
theorem C10_busy_known (env : Env) (bp : parameters_t) (pargs : Bool) (data out : List Nat)
    (s : State) (hdec : decode_frame data data.length = some out)
    (hctl : payload_array env out 0 = bp.id_ctl) (helev : payload_array env out 2 = bp.id_elev)
    (hmode : s.work_state = work_robot) (hid : payload_array env out 1 ≠ s.robot_id) :
    (payload_array env out 3 ∈ [CMD_APPLY, CMD_RELEASE, CMD_CHECKIN, CMD_INQUIRE, CMD_DOOR_OPEN,
        CMD_DOOR_CLOSE, CMD_ARRIVE, CMD_BT_NAME] →
      process_robot_data env bp pargs data data.length s
        = (true, { s with sent := s.sent ++
            [(if pargs then Channel.bt else Channel.ptl,
              send_data_frame [bp.id_ctl, bp.id_elev, payload_array env out 1, CMD_BUSY,
                s.elev_cur_floor, s.robot_id,
                elev_status (env.run_code s.run_state) (led_flag env s.checkin) DOOR_ON 0
                  (env.work_code work_robot)])] })) ∧
    (payload_array env out 3 ∉ [CMD_APPLY, CMD_RELEASE, CMD_CHECKIN, CMD_INQUIRE, CMD_DOOR_OPEN,
        CMD_DOOR_CLOSE, CMD_ARRIVE, CMD_BT_NAME] →
      process_robot_data env bp pargs data data.length s = (true, s)) := by
  rw [process_robot_data_of_decode env bp pargs data data.length s out hdec,
    dispatch_loop_busy env bp pargs _ _ s hctl helev hmode hid, cmd_handles_cmds]
  constructor
  · intro h
    rw [if_pos h]
    simp [notify_busy, busy_payload, send_data, elev_state_run, elev_state_work,
      robot_checkin_get, elev_floor, robot_id_get, hmode]
  · intro h; rw [if_neg h]

/-- Witness of the amended C10: while the elevator is assigned to robot 9, a
RELEASE frame from robot 8 is answered with one BUSY message on the serial
channel, and a frame from robot 8 with the command byte 39 is ignored. -/
theorem C10_busy_known_witness :
    process_robot_data sample_env sample_param false
        [0x02, 0x01, 0x08, 0x05, 0x34, 0x36, 0x36, 0x03] 8 sample_robot
      = (true, { sample_robot with sent :=
          [(Channel.ptl, send_data_frame [0x01, 0x05, 0x08, 55, 0x01, 0x09, 0x54])] }) ∧
    process_robot_data sample_env sample_param false
        [0x02, 0x01, 0x08, 0x05, 0x27, 0x35, 0x33, 0x03] 8 sample_robot
      = (true, sample_robot) :=
  ⟨(C10_busy_known sample_env sample_param false
      [0x02, 0x01, 0x08, 0x05, 0x34, 0x36, 0x36, 0x03] [0x01, 0x08, 0x05, 0x34] sample_robot
      (by decide) (by decide) (by decide) (by decide) (by decide)).1 (by decide),
   (C10_busy_known sample_env sample_param false
      [0x02, 0x01, 0x08, 0x05, 0x27, 0x35, 0x33, 0x03] [0x01, 0x08, 0x05, 0x27] sample_robot
      (by decide) (by decide) (by decide) (by decide) (by decide)).2 (by decide)⟩

/-! ## Lemmas on routing, handlers and the elevator functions -/

theorem dispatch_loop_of_mem (env : Env) (bp : parameters_t) (pargs : Bool)
    (payload : Nat → Nat) (len : Nat) (s : State) (h : cmd_handle)
    (hmem : h ∈ cmd_handles) (hcmd : payload 3 = h.cmd) :
    dispatch_loop env bp pargs payload len cmd_handles s
      = dispatch_entry env bp pargs h payload len s := by
  simp only [cmd_handles, List.mem_cons, List.mem_singleton, List.not_mem_nil, or_false] at hmem
  rcases hmem with rfl | rfl | rfl | rfl | rfl | rfl | rfl | rfl <;>
    simp [cmd_handles, dispatch_loop, hcmd]

theorem send_data_trace (data : List Nat) (len : Nat) (pargs : Bool) (s : State) :
    (send_data data len pargs s).trace = s.trace := rfl

theorem elev_hold_open_trace (env : Env) (flag : Bool) (s : State) :
    (elev_hold_open env flag s).trace = s.trace := by
  unfold elev_hold_open
  split_ifs <;> rfl

theorem handler_trace (env : Env) (bp : parameters_t) (pargs : Bool)
    (payload : Nat → Nat) (len : Nat) (s : State) (h : cmd_handle) (hmem : h ∈ cmd_handles) :
    (h.process env bp pargs payload len s).trace = s.trace := by
  simp only [cmd_handles, List.mem_cons, List.mem_singleton, List.not_mem_nil, or_false] at hmem
  rcases hmem with rfl | rfl | rfl | rfl | rfl | rfl | rfl | rfl
  · rfl
  · simp [process_elev_release, robot_monitor_stop, elevator_set_state_work, robot_checkin_reset,
      robot_id_reset, elev_hold_open_trace, send_data_trace]
  · simp only [process_elev_checkin]; split_ifs <;> rfl
  · rfl
  · simp [process_elev_door_open, elev_hold_open_trace, send_data_trace]
  · simp [process_elev_door_close, elev_hold_open_trace, send_data_trace]
  · simp only [process_elev_arrive]; split_ifs <;> rfl
  · rfl

theorem call_handler_trace (env : Env) (bp : parameters_t) (pargs : Bool)
    (payload : Nat → Nat) (len : Nat) (s : State) (h : cmd_handle) (hmem : h ∈ cmd_handles) :
    (call_handler env bp pargs h payload len s).trace = s.trace ++ [h.cmd] := by
  unfold call_handler
  rw [handler_trace env bp pargs payload len _ h hmem]

theorem elev_hold_open_sent (env : Env) (flag : Bool) (s : State) :
    (elev_hold_open env flag s).sent = s.sent := by
  unfold elev_hold_open
  split_ifs <;> rfl

theorem elev_hold_open_false_hold (env : Env) (s : State) :
    (elev_hold_open env false s).hold_door = false := by
  cases h : s.hold_door <;> simp [elev_hold_open, h]

theorem dispatch_loop_no_match (env : Env) (bp : parameters_t) (pargs : Bool)
    (payload : Nat → Nat) (len : Nat) (s : State) (table : List cmd_handle)
    (h : ∀ e ∈ table, payload 3 ≠ e.cmd) :
    dispatch_loop env bp pargs payload len table s = s := by
  induction table with
  | nil => rfl
  | cons e rest ih =>
    unfold dispatch_loop
    rw [if_neg (h e (by simp))]
    exact ih (fun x hx => h x (by simp [hx]))

theorem notify_busy_fields (env : Env) (bp : parameters_t) (id : Nat) (pargs : Bool)
    (s : State) :
    (notify_busy env bp id pargs s).work_state = s.work_state ∧
    (notify_busy env bp id pargs s).robot_id = s.robot_id ∧
    (notify_busy env bp id pargs s).checkin = s.checkin := ⟨rfl, rfl, rfl⟩

theorem elev_hold_open_fields (env : Env) (flag : Bool) (s : State) :
    (elev_hold_open env flag s).work_state = s.work_state ∧
    (elev_hold_open env flag s).robot_id = s.robot_id ∧
    (elev_hold_open env flag s).checkin = s.checkin := by
  unfold elev_hold_open
  split_ifs <;> exact ⟨rfl, rfl, rfl⟩

theorem handler_robot_inv (env : Env) (bp : parameters_t) (pargs : Bool)
    (payload : Nat → Nat) (len : Nat) (s : State) (h : cmd_handle) (hmem : h ∈ cmd_handles)
    (hmode : s.work_state = work_robot) :
    idle_invariant env.robot_id_none (h.process env bp pargs payload len s) := by
  simp only [cmd_handles, List.mem_cons, List.mem_singleton, List.not_mem_nil, or_false] at hmem
  have hne : ¬ (work_robot = work_idle) := by decide
  rcases hmem with rfl | rfl | rfl | rfl | rfl | rfl | rfl | rfl
  · intro hi; exact absurd hi hne
  · intro _; exact ⟨rfl, rfl⟩
  · intro hi
    simp only [process_elev_checkin] at hi
    split_ifs at hi
    · have : s.work_state = work_idle := hi
      rw [hmode] at this; exact absurd this hne
    · rw [hmode] at hi; exact absurd hi hne
  · intro hi
    have : s.work_state = work_idle := hi
    rw [hmode] at this; exact absurd this hne
  · intro hi
    have h1 := (elev_hold_open_fields env true
      (send_data [bp.id_ctl, bp.id_elev, payload 1, CMD_DOOR_OPEN_REPLY] 4 pargs s)).1
    have : s.work_state = work_idle := Eq.trans (Eq.symm h1) hi
    rw [hmode] at this; exact absurd this hne
  · intro hi
    have h1 := (elev_hold_open_fields env false
      (send_data [bp.id_ctl, bp.id_elev, payload 1, CMD_DOOR_CLOSE_REPLY] 4 pargs s)).1
    have : s.work_state = work_idle := Eq.trans (Eq.symm h1) hi
    rw [hmode] at this; exact absurd this hne
  · intro hi
    simp only [process_elev_arrive] at hi
    split_ifs at hi
    · have : s.work_state = work_idle := hi
      rw [hmode] at this; exact absurd this hne
    · rw [hmode] at hi; exact absurd hi hne
  · intro hi
    have : s.work_state = work_idle := hi
    rw [hmode] at this; exact absurd this hne

theorem dispatch_entry_inv (env : Env) (bp : parameters_t) (pargs : Bool)
    (payload : Nat → Nat) (len : Nat) (s : State) (h : cmd_handle) (hmem : h ∈ cmd_handles)
    (hcmd : payload 3 = h.cmd) (hinv : idle_invariant env.robot_id_none s) :
    idle_invariant env.robot_id_none (dispatch_entry env bp pargs h payload len s) := by
  unfold dispatch_entry
  simp only [elev_state_work, robot_id_get]
  split_ifs with haddr hrobot hid hcmdne happly
  · exact handler_robot_inv env bp pargs payload len _ h hmem hrobot.symm
  · intro hi
    have : s.work_state = work_idle := hi
    rw [← hrobot] at this; exact absurd this (by decide)
  · intro hi
    have : s.work_state = work_idle := hi
    rw [← hrobot] at this; exact absurd this (by decide)
  · have hh : h = ⟨CMD_APPLY, process_elev_apply⟩ := by
      rw [hcmd] at happly
      simp only [cmd_handles, List.mem_cons, List.mem_singleton, List.not_mem_nil,
        or_false] at hmem
      rcases hmem with rfl | rfl | rfl | rfl | rfl | rfl | rfl | rfl <;>
        first | rfl | (exact absurd happly (by decide))
    subst hh
    intro hi
    have : work_robot = work_idle := hi
    exact absurd this (by decide)
  · intro hi
    exact hinv hi
  · exact hinv

theorem process_robot_data_inv (env : Env) (bp : parameters_t) (pargs : Bool)
    (data : List Nat) (len : Nat) (s : State) (hinv : idle_invariant env.robot_id_none s) :
    idle_invariant env.robot_id_none (process_robot_data env bp pargs data len s).2 := by
  cases hdec : decode_frame data len with
  | none => rw [process_robot_data_of_reject env bp pargs data len s hdec]; exact hinv
  | some out =>
    rw [process_robot_data_of_decode env bp pargs data len s out hdec]
    by_cases hex : ∃ e ∈ cmd_handles, payload_array env out 3 = e.cmd
    · obtain ⟨e, hmem, hcmd⟩ := hex
      rw [dispatch_loop_of_mem env bp pargs _ _ s e hmem hcmd]
      exact dispatch_entry_inv env bp pargs _ _ s e hmem hcmd hinv
    · rw [dispatch_loop_no_match env bp pargs _ _ s cmd_handles
        (fun e he hc => hex ⟨e, he, hc⟩)]
      exact hinv

theorem process_frames_inv (bp : parameters_t) (rid : Nat)
    (frames : List (Env × Bool × List Nat)) :
    ∀ s : State, (∀ f ∈ frames, f.1.robot_id_none = rid) → idle_invariant rid s →
      idle_invariant rid (process_frames bp frames s) := by
  induction frames with
  | nil => intro s _ h; exact h
  | cons f rest ih =>
    intro s henv hinv
    unfold process_frames
    rw [List.foldl_cons]
    apply ih _ (fun x hx => henv x (by simp [hx]))
    have hf := henv f (by simp)
    rw [← hf] at hinv ⊢
    exact process_robot_data_inv f.1 bp f.2.1 f.2.2 f.2.2.length s hinv

theorem led_flag_eq_spec (env : Env) (floor : Nat) : led_flag env floor = spec_led env floor := by
  unfold led_flag spec_led
  by_cases h : floor = 0xF7
  · simp [h]
  · have h2 : ¬ DEFAULT_FLOOR = floor := fun e => h e.symm
    cases hl : env.is_led_on floor <;> simp [h, h2]

theorem elev_status_eq_spec (dir led mode : Nat) (hled : led = LED_OFF ∨ led = LED_ON) :
    elev_status dir led DOOR_ON 0x00 mode = spec_status_byte (dir % 4) led DOOR_ON 0 (mode % 4) := by
  unfold elev_status spec_status_byte
  rcases hled with h | h <;> subst h <;> simp [LED_OFF, LED_ON, DOOR_ON]

theorem spec_led_range (env : Env) (floor : Nat) :
    spec_led env floor = LED_OFF ∨ spec_led env floor = LED_ON := by
  unfold spec_led
  split_ifs
  · exact Or.inl rfl
  · exact Or.inr rfl

theorem elev_increase_floor_ne_zero (env : Env) (s : State) :
    (elev_increase env s).elev_cur_floor ≠ 0 := by
  simp only [elev_increase]
  split_ifs <;> omega

theorem elev_decrease_floor_ne_zero (env : Env) (s : State) :
    (elev_decrease env s).elev_cur_floor ≠ 0 := by
  simp only [elev_decrease]
  split_ifs <;> omega

theorem floor_calls_ne_zero (calls : List (Env × FloorCall)) :
    ∀ s : State, s.elev_cur_floor ≠ 0 → (floor_calls calls s).elev_cur_floor ≠ 0 := by
  induction calls with
  | nil => intro s h; exact h
  | cons c rest ih =>
    intro s _
    unfold floor_calls
    rw [List.foldl_cons]
    apply ih
    cases hc : c.2 with
    | increase => simp only [floor_call]; exact elev_increase_floor_ne_zero _ _
    | decrease => simp only [floor_call]; exact elev_decrease_floor_ne_zero _ _
    | set_first_floor => simp [floor_call, elev_set_first_floor]

theorem elev_increase_floor (env : Env) (s : State) (h : s.elev_cur_floor < 255) :
    (elev_increase env s).elev_cur_floor = s.elev_cur_floor + 1 := by
  simp only [elev_increase]
  split_ifs <;> omega

theorem elev_decrease_floor (env : Env) (s : State) (h1 : 2 ≤ s.elev_cur_floor)
    (h2 : s.elev_cur_floor ≤ 255) :
    (elev_decrease env s).elev_cur_floor = s.elev_cur_floor - 1 := by
  simp only [elev_decrease]
  split_ifs <;> omega

theorem elev_decrease_floor_one (env : Env) (s : State) (h1 : s.elev_cur_floor = 1) :
    (elev_decrease env s).elev_cur_floor = 255 := by
  simp only [elev_decrease, h1]
  split_ifs <;> omega

theorem increase_calls_floor (envs : List Env) :
    ∀ s : State, s.elev_cur_floor + envs.length ≤ 255 →
      (increase_calls envs s).elev_cur_floor = s.elev_cur_floor + envs.length := by
  induction envs with
  | nil => intro s _; rfl
  | cons e rest ih =>
    intro s h
    simp only [List.length_cons] at h
    unfold increase_calls
    rw [List.foldl_cons]
    have hs := elev_increase_floor e s (by omega)
    have := ih (elev_increase e s) (by rw [hs]; omega)
    unfold increase_calls at this
    rw [this, hs, List.length_cons]; omega

theorem decrease_calls_floor (envs : List Env) :
    ∀ s : State, s.elev_cur_floor ≤ 255 → 1 + envs.length ≤ s.elev_cur_floor →
      (decrease_calls envs s).elev_cur_floor = s.elev_cur_floor - envs.length := by
  induction envs with
  | nil => intro s _ _; rfl
  | cons e rest ih =>
    intro s h1 h2
    simp only [List.length_cons] at h2
    unfold decrease_calls
    rw [List.foldl_cons]
    have hs := elev_decrease_floor e s (by omega) h1
    have := ih (elev_decrease e s) (by rw [hs]; omega) (by rw [hs]; omega)
    unfold decrease_calls at this
    rw [this, hs, List.length_cons]; omega

theorem hold_ticks_succ (env : Env) (n : Nat) :
    ∀ s : State, hold_ticks env (n + 1) s = vElevHold_tick env (hold_ticks env n s) := by
  induction n with
  | zero => intro s; rfl
  | succ k ih => intro s; rw [hold_ticks, ih (vElevHold_tick env s)]; rfl

theorem hold_ticks_held (env : Env) (s : State) (hd : s.hold_door = true) (hc : s.hold_cnt = 0)
    (k : Nat) (hk : k ≤ 15) :
    hold_ticks env k s = { s with hold_cnt := k } := by
  induction k with
  | zero => cases s; simp_all [hold_ticks]
  | succ n ih =>
    rw [hold_ticks_succ, ih (by omega)]
    have h1 : (n + 1) % 256 = n + 1 := Nat.mod_eq_of_lt (by omega)
    have h2 : ¬ (n + 1 > 15) := by omega
    simp [vElevHold_tick, hd, h1, h2]

/-! ## Routing and scenarios: claims C11, C12, C13 -/

/-- Claim C11. Mode gating as a routing function: for every accepted, correctly
addressed frame whose command byte is the command of an entry `h` of
`cmd_handles`, the handler of `h` is called (and traced) when the work mode is
idle and the command is APPLY, and, after the robot monitor is reset, when the
work mode is robot, the robot id of the frame is the assigned one and the
command is not APPLY; in every other case no handler is traced and exactly one
message, the BUSY notification for the robot id of the frame, is sent. -/
theorem C11_routing (env : Env) (bp : parameters_t) (pargs : Bool) (data out : List Nat)
    (s : State) (h : cmd_handle)
    (hdec : decode_frame data data.length = some out)
    (hctl : payload_array env out 0 = bp.id_ctl) (helev : payload_array env out 2 = bp.id_elev)
    (hmem : h ∈ cmd_handles) (hcmd : payload_array env out 3 = h.cmd) :
    ((s.work_state = work_idle ∧ h.cmd = CMD_APPLY) →
      process_robot_data env bp pargs data data.length s
        = (true, call_handler env bp pargs h (payload_array env out) (out.length % 256) s) ∧
      (process_robot_data env bp pargs data data.length s).2.trace = s.trace ++ [h.cmd]) ∧
    ((s.work_state = work_robot ∧ payload_array env out 1 = s.robot_id ∧ h.cmd ≠ CMD_APPLY) →
      process_robot_data env bp pargs data data.length s
        = (true, call_handler env bp pargs h (payload_array env out) (out.length % 256)
            (robot_monitor_reset s)) ∧
      (process_robot_data env bp pargs data data.length s).2.trace = s.trace ++ [h.cmd]) ∧
    (¬ (s.work_state = work_idle ∧ h.cmd = CMD_APPLY) →
      ¬ (s.work_state = work_robot ∧ payload_array env out 1 = s.robot_id ∧ h.cmd ≠ CMD_APPLY) →
      (process_robot_data env bp pargs data data.length s).2.trace = s.trace ∧
      (process_robot_data env bp pargs data data.length s).2.sent
        = s.sent ++ [(if pargs then Channel.bt else Channel.ptl,
            send_data_frame (busy_payload env bp (payload_array env out 1) s))] ∧
      (process_robot_data env bp pargs data data.length s).2
        = notify_busy env bp (payload_array env out 1) pargs
            (if s.work_state = work_robot ∧ payload_array env out 1 = s.robot_id
              then robot_monitor_reset s else s)) := by
  rw [process_robot_data_of_decode env bp pargs data data.length s out hdec,
    dispatch_loop_of_mem env bp pargs _ _ s h hmem hcmd]
  unfold dispatch_entry
  simp only [hctl, helev, and_self, if_true, elev_state_work, robot_id_get, hcmd]
  refine ⟨?_, ?_, ?_⟩
  · rintro ⟨hi, ha⟩
    have hne : ¬ work_robot = s.work_state := by rw [hi]; decide
    rw [if_neg hne, if_pos ha.symm]
    exact ⟨rfl, call_handler_trace env bp pargs _ _ s h hmem⟩
  · rintro ⟨hr, hid, ha⟩
    have ha2 : CMD_APPLY ≠ h.cmd := fun e => ha e.symm
    rw [if_pos hr.symm, if_pos hid, if_pos ha2]
    exact ⟨rfl, call_handler_trace env bp pargs _ _ _ h hmem⟩
  · intro h1 h2
    cases hw : s.work_state with
    | work_idle =>
      have ha : ¬ CMD_APPLY = h.cmd := fun e => h1 ⟨hw, e.symm⟩
      simp [ha, notify_busy, send_data, busy_payload, elev_state_run, elev_state_work,
        robot_checkin_get, elev_floor, robot_id_get, hw]
    | work_robot =>
      by_cases hid : payload_array env out 1 = s.robot_id
      · have ha : ¬ CMD_APPLY ≠ h.cmd := fun e => h2 ⟨hw, hid, fun e2 => e e2.symm⟩
        simp [ha, hid, notify_busy, send_data, busy_payload, elev_state_run, elev_state_work,
          robot_checkin_get, elev_floor, robot_id_get, hw, robot_monitor_reset]
      · simp [hid, notify_busy, send_data, busy_payload, elev_state_run, elev_state_work,
          robot_checkin_get, elev_floor, robot_id_get, hw]

/-- Witness of C11: an APPLY frame from robot 9 gets BUSY while robot 9 is
assigned, and is handled in idle mode. -/
theorem C11_routing_witness :
    (process_robot_data sample_env sample_param false
        [0x02, 0x01, 0x09, 0x05, 0x32, 0x07, 0x07, 0x37, 0x39, 0x03] 10 sample_robot).2.trace
      = sample_robot.trace ∧
    (process_robot_data sample_env sample_param false
        [0x02, 0x01, 0x09, 0x05, 0x32, 0x07, 0x07, 0x37, 0x39, 0x03] 10 sample_idle).2.trace
      = sample_idle.trace ++ [CMD_APPLY] :=
  ⟨((C11_routing sample_env sample_param false
      [0x02, 0x01, 0x09, 0x05, 0x32, 0x07, 0x07, 0x37, 0x39, 0x03]
      [0x01, 0x09, 0x05, 0x32, 0x07, 0x07] sample_robot ⟨CMD_APPLY, process_elev_apply⟩
      (by decide) (by decide) (by decide) (by simp [cmd_handles]) (by decide)).2.2
      (by decide) (by decide)).1,
   ((C11_routing sample_env sample_param false
      [0x02, 0x01, 0x09, 0x05, 0x32, 0x07, 0x07, 0x37, 0x39, 0x03]
      [0x01, 0x09, 0x05, 0x32, 0x07, 0x07] sample_idle ⟨CMD_APPLY, process_elev_apply⟩
      (by decide) (by decide) (by decide) (by simp [cmd_handles]) (by decide)).1
      (by decide)).2⟩

/-- Claim C12. APPLY/RELEASE scenario for every robot id `r`: from idle mode an
accepted, correctly addressed APPLY frame from `r` sends one reply with command
byte 51 and robot id `r` and leaves work mode robot with assigned robot id
`r`; a following accepted, correctly addressed RELEASE frame from `r` sends one
reply with command byte 53 and leaves work mode idle, robot id and checkin
floor at their reset values and the door hold flag cleared. -/
theorem C12_apply_release (env1 env2 : Env) (bp : parameters_t) (pargs1 pargs2 : Bool)
    (data1 out1 data2 out2 : List Nat) (s s1 s2 : State) (r : Nat)
    (hidle : s.work_state = work_idle)
    (hdec1 : decode_frame data1 data1.length = some out1)
    (hctl1 : payload_array env1 out1 0 = bp.id_ctl)
    (helev1 : payload_array env1 out1 2 = bp.id_elev)
    (hcmd1 : payload_array env1 out1 3 = CMD_APPLY)
    (hr1 : payload_array env1 out1 1 = r)
    (hs1 : s1 = (process_robot_data env1 bp pargs1 data1 data1.length s).2)
    (hdec2 : decode_frame data2 data2.length = some out2)
    (hctl2 : payload_array env2 out2 0 = bp.id_ctl)
    (helev2 : payload_array env2 out2 2 = bp.id_elev)
    (hcmd2 : payload_array env2 out2 3 = CMD_RELEASE)
    (hr2 : payload_array env2 out2 1 = r)
    (hs2 : s2 = (process_robot_data env2 bp pargs2 data2 data2.length s1).2) :
    (s1.sent = s.sent ++ [(if pargs1 then Channel.bt else Channel.ptl,
        send_data_frame [bp.id_ctl, bp.id_elev, r, CMD_APPLY_REPLY, s.elev_cur_floor,
          payload_array env1 out1 4,
          elev_status (env1.run_code s.run_state) (led_flag env1 (payload_array env1 out1 5))
            DOOR_ON 0 (env1.work_code work_idle)])] ∧
      s1.work_state = work_robot ∧ s1.robot_id = r) ∧
    (s2.sent = s1.sent ++ [(if pargs2 then Channel.bt else Channel.ptl,
        send_data_frame [bp.id_ctl, bp.id_elev, r, CMD_RELEASE_REPLY,
          payload_array env2 out2 4, 0x00])] ∧
      s2.work_state = work_idle ∧ s2.robot_id = env2.robot_id_none ∧
      s2.checkin = DEFAULT_FLOOR ∧ s2.hold_door = false) := by
  have e1 : s1 = call_handler env1 bp pargs1 ⟨CMD_APPLY, process_elev_apply⟩
      (payload_array env1 out1) (out1.length % 256) s := by
    rw [hs1, process_robot_data_of_decode env1 bp pargs1 data1 data1.length s out1 hdec1,
      dispatch_loop_of_mem env1 bp pargs1 _ _ s ⟨CMD_APPLY, process_elev_apply⟩
        (by simp [cmd_handles]) hcmd1]
    simp [dispatch_entry, hctl1, helev1, hcmd1, elev_state_work, hidle]
  have a1 : s1.work_state = work_robot := by
    rw [e1]; simp [call_handler, process_elev_apply, robot_monitor_start, elevator_set_state_work]
  have a2 : s1.robot_id = r := by
    rw [e1]
    simp [call_handler, process_elev_apply, robot_monitor_start, elevator_set_state_work,
      robot_id_set, hr1]
  have e2 : s2 = call_handler env2 bp pargs2 ⟨CMD_RELEASE, process_elev_release⟩
      (payload_array env2 out2) (out2.length % 256) (robot_monitor_reset s1) := by
    rw [hs2, process_robot_data_of_decode env2 bp pargs2 data2 data2.length s1 out2 hdec2,
      dispatch_loop_of_mem env2 bp pargs2 _ _ s1 ⟨CMD_RELEASE, process_elev_release⟩
        (by simp [cmd_handles]) hcmd2]
    simp [dispatch_entry, hctl2, helev2, hcmd2, elev_state_work, a1, robot_id_get, a2, hr2]
  refine ⟨⟨?_, a1, a2⟩, ?_, ?_, ?_, ?_, ?_⟩
  · rw [e1]
    simp [call_handler, process_elev_apply, robot_monitor_start, elevator_set_state_work,
      robot_id_set, send_data, elev_state_run, elev_state_work, elev_floor, hidle, hr1]
  · have h : s2.sent = (elev_hold_open env2 false
        (send_data [bp.id_ctl, bp.id_elev, payload_array env2 out2 1, CMD_RELEASE_REPLY,
          payload_array env2 out2 4, 0x00] 6 pargs2
          { robot_monitor_reset s1 with
              trace := (robot_monitor_reset s1).trace ++ [CMD_RELEASE] })).sent := by
      rw [e2]; rfl
    rw [h, elev_hold_open_sent, hr2]
    simp [send_data, robot_monitor_reset]
  · rw [e2]; rfl
  · rw [e2]; rfl
  · rw [e2]; rfl
  · have h : s2.hold_door = (elev_hold_open env2 false
        (send_data [bp.id_ctl, bp.id_elev, payload_array env2 out2 1, CMD_RELEASE_REPLY,
          payload_array env2 out2 4, 0x00] 6 pargs2
          { robot_monitor_reset s1 with
              trace := (robot_monitor_reset s1).trace ++ [CMD_RELEASE] })).hold_door := by
      rw [e2]; rfl
    rw [h, elev_hold_open_false_hold]

/-- Witness of C12 for robot 9. -/
theorem C12_apply_release_witness :
    (process_robot_data sample_env sample_param false
        [0x02, 0x01, 0x09, 0x05, 0x32, 0x07, 0x07, 0x37, 0x39, 0x03] 10 sample_idle).2.robot_id
      = 0x09 ∧
    (process_robot_data sample_env sample_param false
        [0x02, 0x01, 0x09, 0x05, 0x34, 0x00, 0x00, 0x36, 0x37, 0x03] 10
        (process_robot_data sample_env sample_param false
          [0x02, 0x01, 0x09, 0x05, 0x32, 0x07, 0x07, 0x37, 0x39, 0x03] 10 sample_idle).2).2.work_state
      = work_idle :=
  ⟨(C12_apply_release sample_env sample_env sample_param false false
      [0x02, 0x01, 0x09, 0x05, 0x32, 0x07, 0x07, 0x37, 0x39, 0x03]
      [0x01, 0x09, 0x05, 0x32, 0x07, 0x07]
      [0x02, 0x01, 0x09, 0x05, 0x34, 0x00, 0x00, 0x36, 0x37, 0x03]
      [0x01, 0x09, 0x05, 0x34, 0x00, 0x00] sample_idle _ _ 0x09
      (by decide) (by decide) (by decide) (by decide) (by decide) (by decide) rfl
      (by decide) (by decide) (by decide) (by decide) (by decide) rfl).1.2.2,
   (C12_apply_release sample_env sample_env sample_param false false
      [0x02, 0x01, 0x09, 0x05, 0x32, 0x07, 0x07, 0x37, 0x39, 0x03]
      [0x01, 0x09, 0x05, 0x32, 0x07, 0x07]
      [0x02, 0x01, 0x09, 0x05, 0x34, 0x00, 0x00, 0x36, 0x37, 0x03]
      [0x01, 0x09, 0x05, 0x34, 0x00, 0x00] sample_idle _ _ 0x09
      (by decide) (by decide) (by decide) (by decide) (by decide) (by decide) rfl
      (by decide) (by decide) (by decide) (by decide) (by decide) rfl).2.2.1⟩

/-- Claim C13. Starting from a state that is idle with robot id and checkin
floor at their reset values, after every finite sequence of frames passed to
`process_robot_data`: if the work mode is idle then the robot id and the
checkin floor are at their reset values. -/
theorem C13_idle_invariant (bp : parameters_t) (rid : Nat)
    (frames : List (Env × Bool × List Nat)) (s0 : State)
    (henv : ∀ f ∈ frames, f.1.robot_id_none = rid)
    (hinit : s0.work_state = work_idle ∧ s0.robot_id = rid ∧ s0.checkin = DEFAULT_FLOOR) :
    (process_frames bp frames s0).work_state = work_idle →
      (process_frames bp frames s0).robot_id = rid ∧
      (process_frames bp frames s0).checkin = DEFAULT_FLOOR :=
  process_frames_inv bp rid frames s0 henv (fun _ => ⟨hinit.2.1, hinit.2.2⟩)

/-- Witness of C13: APPLY, CHECKIN for floor 7 and RELEASE from robot 9. -/
theorem C13_idle_invariant_witness :
    (process_frames sample_param
      [(sample_env, false, [0x02, 0x01, 0x09, 0x05, 0x32, 0x07, 0x07, 0x37, 0x39, 0x03]),
       (sample_env, false, [0x02, 0x01, 0x09, 0x05, 0x1e, 0x07, 0x00, 0x35, 0x32, 0x03]),
       (sample_env, false, [0x02, 0x01, 0x09, 0x05, 0x34, 0x00, 0x00, 0x36, 0x37, 0x03])]
      sample_idle).robot_id = 0xff ∧
    (process_frames sample_param
      [(sample_env, false, [0x02, 0x01, 0x09, 0x05, 0x32, 0x07, 0x07, 0x37, 0x39, 0x03]),
       (sample_env, false, [0x02, 0x01, 0x09, 0x05, 0x1e, 0x07, 0x00, 0x35, 0x32, 0x03]),
       (sample_env, false, [0x02, 0x01, 0x09, 0x05, 0x34, 0x00, 0x00, 0x36, 0x37, 0x03])]
      sample_idle).checkin = DEFAULT_FLOOR :=
  C13_idle_invariant sample_param 0xff
    [(sample_env, false, [0x02, 0x01, 0x09, 0x05, 0x32, 0x07, 0x07, 0x37, 0x39, 0x03]),
     (sample_env, false, [0x02, 0x01, 0x09, 0x05, 0x1e, 0x07, 0x00, 0x35, 0x32, 0x03]),
     (sample_env, false, [0x02, 0x01, 0x09, 0x05, 0x34, 0x00, 0x00, 0x36, 0x37, 0x03])]
    sample_idle (by decide) (by decide) (by decide)

/-! ## Outbound payloads: claims C14, C15, C16 -/

/-- Claim C14, the code at a failing input. In robot mode assigned to robot 9
the accepted BT_NAME frame `02 01 09 05 29 35 36 03` from robot 9 is handled by
`process_elev_bt_name`, whose reply payload `01 05 09 25 41 42 00` carries the
command byte 37 (`CMD_DOOR_CLOSE_REPLY`), not 42 (`CMD_BT_NAME_REPLY`). -/
theorem C14_bt_name_reply_code :
    decode_frame [0x02, 0x01, 0x09, 0x05, 0x29, 0x35, 0x36, 0x03] 8
      = some [0x01, 0x09, 0x05, CMD_BT_NAME] ∧
    (process_robot_data sample_env sample_param false
        [0x02, 0x01, 0x09, 0x05, 0x29, 0x35, 0x36, 0x03] 8 sample_robot).2.trace
      = [CMD_BT_NAME] ∧
    (process_robot_data sample_env sample_param false
        [0x02, 0x01, 0x09, 0x05, 0x29, 0x35, 0x36, 0x03] 8 sample_robot).2.sent
      = [(Channel.ptl, send_data_frame [0x01, 0x05, 0x09, 37, 0x41, 0x42, 0x00])] ∧
    List.getD [0x01, 0x05, 0x09, 37, 0x41, 0x42, 0x00] 3 0 = CMD_DOOR_CLOSE_REPLY ∧
    List.getD [0x01, 0x05, 0x09, 37, 0x41, 0x42, 0x00] 3 0 ≠ CMD_BT_NAME_REPLY := by
  decide

/-- Counterexample to C15 as stated: the inbound INQUIRE payload `01 09 05 20`
has the robot id 9 at index 1 and the elevator id 5 at index 2; the reply
payload `01 05 09 21 01 f7 54` has the elevator id at index 1 and the robot id
at index 2. -/
theorem C15_counterexample :
    decode_frame [0x02, 0x01, 0x09, 0x05, 0x20, 0x34, 0x37, 0x03] 8
      = some [0x01, 0x09, 0x05, CMD_INQUIRE] ∧
    sample_param.id_ctl = 0x01 ∧ sample_param.id_elev = 0x05 ∧ sample_robot.robot_id = 0x09 ∧
    (process_robot_data sample_env sample_param false
        [0x02, 0x01, 0x09, 0x05, 0x20, 0x34, 0x37, 0x03] 8 sample_robot).2.sent
      = [(Channel.ptl, send_data_frame [0x01, 0x05, 0x09, CMD_INQUIRE_REPLY, 0x01, 0xf7, 0x54])] ∧
    List.getD [0x01, 0x05, 0x09, CMD_INQUIRE_REPLY, 0x01, 0xf7, 0x54] 1 0 ≠ sample_robot.robot_id ∧
    List.getD [0x01, 0x05, 0x09, CMD_INQUIRE_REPLY, 0x01, 0xf7, 0x54] 2 0 ≠ sample_param.id_elev := by
  decide

/-- Claim C15, amended. Every reply built by a handler, and the payloads of
`notify_arrive` and `notify_busy`, carry the controller id at index 0, the
ELEVATOR id at index 1 and the ROBOT id at index 2 (inbound payloads carry the
robot id at index 1 and the elevator id at index 2); the robot id is the
requester id `data[1]` for replies, the assigned robot id for `notify_arrive`
and the id passed to `notify_busy`. -/
theorem C15_header_order (env : Env) (bp : parameters_t) (pargs : Bool) (data : Nat → Nat)
    (len floor id : Nat) (s : State) (hname : strlen bp.bt_name < 251) :
    sends_with_header s (process_elev_apply env bp pargs data len s) pargs
      bp.id_ctl bp.id_elev (data 1) ∧
    sends_with_header s (process_elev_release env bp pargs data len s) pargs
      bp.id_ctl bp.id_elev (data 1) ∧
    ((0 < data 4 ∧ data 4 ≤ bp.total_floor) →
      sends_with_header s (process_elev_checkin env bp pargs data len s) pargs
        bp.id_ctl bp.id_elev (data 1)) ∧
    sends_with_header s (process_elev_inquire env bp pargs data len s) pargs
      bp.id_ctl bp.id_elev (data 1) ∧
    sends_with_header s (process_elev_door_open env bp pargs data len s) pargs
      bp.id_ctl bp.id_elev (data 1) ∧
    sends_with_header s (process_elev_door_close env bp pargs data len s) pargs
      bp.id_ctl bp.id_elev (data 1) ∧
    sends_with_header s (process_elev_bt_name env bp pargs data len s) pargs
      bp.id_ctl bp.id_elev (data 1) ∧
    sends_with_header s (notify_arrive env bp floor pargs s) pargs
      bp.id_ctl bp.id_elev (robot_id_get s) ∧
    sends_with_header s (notify_busy env bp id pargs s) pargs
      bp.id_ctl bp.id_elev id := by
  refine ⟨⟨_, rfl, rfl, rfl, rfl⟩, ?_, ?_, ⟨_, rfl, rfl, rfl, rfl⟩, ?_, ?_, ?_,
    ⟨_, rfl, rfl, rfl, rfl⟩, ⟨_, rfl, rfl, rfl, rfl⟩⟩
  · refine ⟨[bp.id_ctl, bp.id_elev, data 1, CMD_RELEASE_REPLY, data 4, 0x00], ?_, rfl, rfl, rfl⟩
    have h : (process_elev_release env bp pargs data len s).sent
        = (elev_hold_open env false (send_data
            [bp.id_ctl, bp.id_elev, data 1, CMD_RELEASE_REPLY, data 4, 0x00] 6 pargs s)).sent :=
      rfl
    rw [h, elev_hold_open_sent]; rfl
  · intro hf
    refine ⟨[bp.id_ctl, bp.id_elev, data 1, CMD_CHECKIN_REPLY, data 4, data 5], ?_, rfl, rfl, rfl⟩
    have hf2 : data 4 > 0 ∧ data 4 ≤ bp.total_floor := hf
    simp only [process_elev_checkin, if_pos hf2]
    rfl
  · refine ⟨[bp.id_ctl, bp.id_elev, data 1, CMD_DOOR_OPEN_REPLY], ?_, rfl, rfl, rfl⟩
    have h : (process_elev_door_open env bp pargs data len s).sent
        = (elev_hold_open env true (send_data
            [bp.id_ctl, bp.id_elev, data 1, CMD_DOOR_OPEN_REPLY] 4 pargs s)).sent := rfl
    rw [h, elev_hold_open_sent]; rfl
  · refine ⟨[bp.id_ctl, bp.id_elev, data 1, CMD_DOOR_CLOSE_REPLY], ?_, rfl, rfl, rfl⟩
    have h : (process_elev_door_close env bp pargs data len s).sent
        = (elev_hold_open env false (send_data
            [bp.id_ctl, bp.id_elev, data 1, CMD_DOOR_CLOSE_REPLY] 4 pargs s)).sent := rfl
    rw [h, elev_hold_open_sent]; rfl
  · have hm : strlen bp.bt_name % 256 = strlen bp.bt_name := Nat.mod_eq_of_lt (by omega)
    have hl : (4 + strlen bp.bt_name + 1) % 256 = (strlen bp.bt_name + 1) + 4 := by
      rw [Nat.mod_eq_of_lt (by omega)]; omega
    refine ⟨[bp.id_ctl, bp.id_elev, data 1, CMD_DOOR_CLOSE_REPLY] ++
      ((List.range (strlen bp.bt_name + 1)).map (fun i => bp.bt_name.getD i 0)).take
        (strlen bp.bt_name + 1), ?_, rfl, rfl, rfl⟩
    simp only [process_elev_bt_name, send_data, hm, hl]
    simp [List.take]

/-- Witness of the amended C15 at the INQUIRE reply to robot 9. -/
theorem C15_header_order_witness :
    sends_with_header sample_robot
      (process_elev_inquire sample_env sample_param false
        (payload_array sample_env [0x01, 0x09, 0x05, 0x20]) 4 sample_robot)
      false 0x01 0x05 0x09 :=
  (C15_header_order sample_env sample_param false
    (payload_array sample_env [0x01, 0x09, 0x05, 0x20]) 4 7 8 sample_robot (by decide)).2.2.2.1

/-- Counterexample to C16 as stated: with the door not held, the status byte
of the INQUIRE reply is `0x54` (door bit set), while the packing with the door
bit taken from the hold flag gives `0x44`. -/
theorem C16_counterexample :
    sample_robot.hold_door = false ∧
    (process_robot_data sample_env sample_param false
        [0x02, 0x01, 0x09, 0x05, 0x20, 0x34, 0x37, 0x03] 8 sample_robot).2.sent
      = [(Channel.ptl, send_data_frame [0x01, 0x05, 0x09, CMD_INQUIRE_REPLY, 0x01, 0xf7, 0x54])] ∧
    spec_status_byte (sample_env.run_code sample_robot.run_state)
        (spec_led sample_env sample_robot.checkin) (spec_door sample_robot) 0
        (sample_env.work_code sample_robot.work_state) = 0x44 ∧
    (0x54 : Nat) ≠ spec_status_byte (sample_env.run_code sample_robot.run_state)
        (spec_led sample_env sample_robot.checkin) (spec_door sample_robot) 0
        (sample_env.work_code sample_robot.work_state) := by
  decide

/-- Claim C16, amended. In every INQUIRE reply and BUSY notification the status
byte is `dir + 4*led + 16*door + 32*reserved + 64*mode` with `dir` the 2-bit
run direction, `mode` the 2-bit work mode, `reserved = 0`, `led` off (1) when
the checkin floor is `0xF7` or its LED is unlit and on (2) when it is lit, and
`door` always `DOOR_ON` (1), whatever the hold flag; the byte fits 8 bits. -/
theorem C16_status_byte (env : Env) (bp : parameters_t) (pargs : Bool) (data : Nat → Nat)
    (len id : Nat) (s : State) :
    (process_elev_inquire env bp pargs data len s).sent
      = s.sent ++ [(if pargs then Channel.bt else Channel.ptl,
          send_data_frame [bp.id_ctl, bp.id_elev, data 1, CMD_INQUIRE_REPLY, s.elev_cur_floor,
            s.checkin,
            spec_status_byte (env.run_code s.run_state % 4) (spec_led env s.checkin) DOOR_ON 0
              (env.work_code s.work_state % 4)])] ∧
    (notify_busy env bp id pargs s).sent
      = s.sent ++ [(if pargs then Channel.bt else Channel.ptl,
          send_data_frame [bp.id_ctl, bp.id_elev, id, CMD_BUSY, s.elev_cur_floor, s.robot_id,
            spec_status_byte (env.run_code s.run_state % 4) (spec_led env s.checkin) DOOR_ON 0
              (env.work_code s.work_state % 4)])] ∧
    spec_status_byte (env.run_code s.run_state % 4) (spec_led env s.checkin) DOOR_ON 0
        (env.work_code s.work_state % 4) < 256 := by
  have hst : elev_status (env.run_code s.run_state) (led_flag env s.checkin) DOOR_ON 0x00
        (env.work_code s.work_state)
      = spec_status_byte (env.run_code s.run_state % 4) (spec_led env s.checkin) DOOR_ON 0
          (env.work_code s.work_state % 4) := by
    rw [led_flag_eq_spec]
    exact elev_status_eq_spec _ _ _ (spec_led_range env s.checkin)
  refine ⟨?_, ?_, ?_⟩
  · simp only [process_elev_inquire, send_data, robot_checkin_get, elev_state_run,
      elev_state_work, elev_floor, hst]
    rfl
  · simp only [notify_busy, busy_payload, send_data, robot_checkin_get, elev_state_run,
      elev_state_work, elev_floor, robot_id_get, hst]
    rfl
  · have h1 := spec_led_range env s.checkin
    rcases h1 with h | h <;> simp only [spec_status_byte, h, LED_OFF, LED_ON, DOOR_ON] <;> omega

/-! ## Elevator state machine: claims C17, C18, C19, C20 -/

/-- Claim C17. Starting from floor 1, after every finite sequence of
`elev_increase`, `elev_decrease` and `elev_set_first_floor` calls, with the
8-bit wrap-around of the floor variable, `elev_floor` is different from 0. -/
theorem C17_floor_never_zero (calls : List (Env × FloorCall)) (s : State)
    (hinit : s.elev_cur_floor = 1) : elev_floor (floor_calls calls s) ≠ 0 :=
  floor_calls_ne_zero calls s (by rw [hinit]; decide)

/-- Witness of C17 on a sequence that crosses the skipped floor 0 twice. -/
theorem C17_floor_never_zero_witness :
    elev_floor (floor_calls
      [(sample_env, FloorCall.decrease), (sample_env, FloorCall.increase),
       (sample_env, FloorCall.decrease), (sample_env, FloorCall.decrease),
       (sample_env, FloorCall.set_first_floor), (sample_env, FloorCall.decrease)]
      sample_idle) ≠ 0 :=
  C17_floor_never_zero _ sample_idle (by decide)

/-- Claim C18. From floor 1, `n` calls of `elev_increase` with `n ≤ 126` give
floor `1 + n`; `n` calls of `elev_decrease` with `1 ≤ n ≤ 128` give floor `-n`
(the bit pattern read as a signed 8-bit number); the first decrease lands on
-1 and one increase from there lands on 1. -/
theorem C18_sequencing (envs : List Env) (s : State) (hinit : s.elev_cur_floor = 1) :
    (envs.length ≤ 126 →
      elev_floor (increase_calls envs s) = 1 + envs.length ∧
      char_value (elev_floor (increase_calls envs s)) = 1 + (envs.length : Int)) ∧
    (1 ≤ envs.length → envs.length ≤ 128 →
      char_value (elev_floor (decrease_calls envs s)) = -(envs.length : Int)) ∧
    (∀ e1 e2 : Env, char_value (elev_floor (elev_decrease e1 s)) = -1 ∧
      elev_floor (elev_increase e2 (elev_decrease e1 s)) = 1) := by
  refine ⟨?_, ?_, ?_⟩
  · intro h
    have hf := increase_calls_floor envs s (by omega)
    rw [hinit] at hf
    unfold elev_floor
    rw [hf]
    refine ⟨rfl, ?_⟩
    unfold char_value
    split_ifs <;> omega
  · intro h1 h2
    cases envs with
    | nil => simp at h1
    | cons e rest =>
      simp only [List.length_cons] at h1 h2 ⊢
      have hd := elev_decrease_floor_one e s hinit
      have hf := decrease_calls_floor rest (elev_decrease e s) (by omega) (by omega)
      have e2 : decrease_calls (e :: rest) s = decrease_calls rest (elev_decrease e s) := by
        simp [decrease_calls]
      unfold elev_floor
      rw [e2, hf, hd]
      unfold char_value
      split_ifs <;> push_cast <;> omega
  · intro e1 e2
    have hd := elev_decrease_floor_one e1 s hinit
    unfold elev_floor
    constructor
    · rw [hd]; decide
    · simp only [elev_increase, hd]
      split_ifs <;> omega

/-- Witness of C18: three increases reach floor 4, two decreases floor -2. -/
theorem C18_sequencing_witness :
    elev_floor (increase_calls [sample_env, sample_env, sample_env] sample_idle) = 1 + 3 ∧
    char_value (elev_floor (decrease_calls [sample_env, sample_env] sample_idle)) = -2 :=
  ⟨((C18_sequencing [sample_env, sample_env, sample_env] sample_idle (by decide)).1
      (by decide)).1,
   (C18_sequencing [sample_env, sample_env] sample_idle (by decide)).2.1 (by decide) (by decide)⟩

/-- Claim C19. `elev_hold_open(TRUE)` sets the hold flag, resets the counter and
presses the open key when the arrival switch reports arrival, and changes
nothing otherwise, so the key is pressed if and only if the switch reports
arrival; `elev_hold_open(FALSE)` clears the flag, resets the counter and
releases the key when a hold is active, and changes nothing otherwise. -/
theorem C19_hold_open (env : Env) (s : State) :
    (env.switch_is_arrive = true →
      elev_hold_open env true s
        = { s with hold_door := true, hold_cnt := 0,
                   keys := s.keys ++ [KeyAct.press env.keymap_open] }) ∧
    (env.switch_is_arrive = false → elev_hold_open env true s = s) ∧
    ((elev_hold_open env true s).keys = s.keys ++ [KeyAct.press env.keymap_open]
      ↔ env.switch_is_arrive = true) ∧
    (s.hold_door = true →
      elev_hold_open env false s
        = { s with hold_door := false, hold_cnt := 0,
                   keys := s.keys ++ [KeyAct.release env.keymap_open] }) ∧
    (s.hold_door = false → elev_hold_open env false s = s) := by
  refine ⟨?_, ?_, ?_, ?_, ?_⟩
  · intro h; simp [elev_hold_open, h]
  · intro h; simp [elev_hold_open, h]
  · cases h : env.switch_is_arrive <;> simp [elev_hold_open, h]
  · intro h; simp [elev_hold_open, h]
  · intro h; simp [elev_hold_open, h]

/-- Counterexample to C20 as stated: after an accepted `elev_hold_open(TRUE)`
and 15 iterations of `vElevHold` the hold flag is still set, the counter is 15
and the key has not been released. -/
theorem C20_counterexample :
    (elev_hold_open sample_env true sample_idle).hold_door = true ∧
    (elev_hold_open sample_env true sample_idle).hold_cnt = 0 ∧
    (hold_ticks sample_env 15 (elev_hold_open sample_env true sample_idle)).hold_door = true ∧
    (hold_ticks sample_env 15 (elev_hold_open sample_env true sample_idle)).hold_cnt = 15 ∧
    (hold_ticks sample_env 15 (elev_hold_open sample_env true sample_idle)).keys
      = [KeyAct.press 9] := by
  decide

/-- Claim C20, amended. After an accepted `elev_hold_open(TRUE)` and with no
further hold command, the hold stays set, with the counter equal to the number
of ticks, for up to and including 15 iterations of `vElevHold`; the 16th
iteration (counter 16 > 15) clears the hold flag, resets the counter and
releases the open key. -/
theorem C20_auto_release (env : Env) (s : State) (harrive : env.switch_is_arrive = true) :
    (∀ k, k ≤ 15 →
      hold_ticks env k (elev_hold_open env true s)
        = { elev_hold_open env true s with hold_cnt := k } ∧
      (hold_ticks env k (elev_hold_open env true s)).hold_door = true) ∧
    hold_ticks env 16 (elev_hold_open env true s)
      = { elev_hold_open env true s with
            hold_door := false, hold_cnt := 0,
            keys := s.keys ++ [KeyAct.press env.keymap_open, KeyAct.release env.keymap_open] } := by
  have hd : (elev_hold_open env true s).hold_door = true := by simp [elev_hold_open, harrive]
  have hc : (elev_hold_open env true s).hold_cnt = 0 := by simp [elev_hold_open, harrive]
  have hkeys : (elev_hold_open env true s).keys = s.keys ++ [KeyAct.press env.keymap_open] := by
    simp [elev_hold_open, harrive]
  refine ⟨fun k hk => ?_, ?_⟩
  · have h := hold_ticks_held env _ hd hc k hk
    refine ⟨h, ?_⟩
    rw [h]; exact hd
  · rw [hold_ticks_succ, hold_ticks_held env _ hd hc 15 (by omega)]
    simp [vElevHold_tick, hd, hkeys]

/-- Witness of the amended C20 from the start-up state. -/
theorem C20_auto_release_witness :
    (hold_ticks sample_env 15 (elev_hold_open sample_env true sample_idle)).hold_door = true ∧
    hold_ticks sample_env 16 (elev_hold_open sample_env true sample_idle)
      = { sample_idle with keys := [KeyAct.press 9, KeyAct.release 9] } :=
  ⟨((C20_auto_release sample_env sample_idle (by decide)).1 15 (by decide)).2,
   (C20_auto_release sample_env sample_idle (by decide)).2⟩

/-! ## Lemmas on the arrival retry loop, the password window and the unescape loop -/

theorem notify_arrive_eq (env : Env) (bp : parameters_t) (floor : Nat) (pargs : Bool)
    (s : State) :
    notify_arrive env bp floor pargs s
      = { s with sent := s.sent ++ [arrive_message env bp floor pargs s] } := by
  simp [notify_arrive, arrive_message, send_data, elev_state_run, elev_state_work, robot_id_get,
    elev_floor]

theorem arrive_message_sent (env : Env) (bp : parameters_t) (floor : Nat) (pargs : Bool)
    (s : State) (l : List (Channel × List Nat)) (q : Option Nat) (b : Bool) :
    arrive_message env bp floor pargs { s with sent := l, xArriveQueue := q, xNotifySemaphore := b }
      = arrive_message env bp floor pargs s := rfl

theorem vElevArrive_retry_timeouts (env : Env) (bp : parameters_t) (pargs : Bool) (floor : Nat)
    (given : Nat → Bool) (n : Nat) :
    ∀ (fuel k e : Nat) (s : State), s.xNotifySemaphore = false →
      (∀ j, k ≤ j → j < k + n → given j = false) → e + n ≤ MAX_CHECK_CNT → n ≤ fuel →
      vElevArrive_retry env bp pargs floor given fuel k e s
        = vElevArrive_retry env bp pargs floor given (fuel - n) (k + n) (e + n)
            { s with sent := s.sent ++ List.replicate n (arrive_message env bp floor pargs s) } := by
  induction n with
  | zero => intro fuel k e s _ _ _ _; simp
  | succ n ih =>
    intro fuel k e s hs hg he hf
    obtain ⟨f, rfl⟩ : ∃ f, fuel = f + 1 := ⟨fuel - 1, by omega⟩
    have hgk : given k = false := hg k (by omega) (by omega)
    have hm : (e + 1) % 256 = e + 1 := Nat.mod_eq_of_lt (by simp only [MAX_CHECK_CNT] at he; omega)
    have hle : ¬ (e + 1 > MAX_CHECK_CNT) := by omega
    rw [vElevArrive_retry]
    simp only [hs, hgk, Bool.or_self, Bool.false_eq_true, if_false, hm, if_neg hle]
    rw [ih f (k + 1) (e + 1) _ (by rw [notify_arrive_eq]; exact hs)
      (fun j h1 h2 => hg j (by omega) (by omega)) (by omega) (by omega)]
    rw [notify_arrive_eq]
    have e1 : f + 1 - (n + 1) = f - n := by omega
    have e2 : k + 1 + n = k + (n + 1) := by omega
    have e3 : e + 1 + n = e + (n + 1) := by omega
    rw [e1, e2, e3]
    congr 1
    simp [List.replicate_succ, arrive_message, hs]

theorem elev_arrived_accept (env : Env) (bp : parameters_t) (pargs : Bool) (floor : Nat)
    (s : State) (hmode : s.work_state = work_robot)
    (hchk : robot_is_checkin (env.floormap_dis_to_phy floor) s = true)
    (hfloor : s.elev_cur_floor = floor) :
    elev_arrived env bp pargs floor s
      = { s with sent := s.sent ++ [arrive_message env bp floor pargs s],
                 xArriveQueue := some floor } := by
  unfold elev_arrived
  rw [if_pos hmode.symm, if_pos hchk, if_pos hfloor, notify_arrive_eq]

theorem push_pwd_node_fst (node : pwd_node) (st : Monitor × State) :
    (push_pwd_node node st).1
      = { st.1 with pwds := [pwds_get st.1.pwds 1, pwds_get st.1.pwds 2, pwds_get st.1.pwds 3,
            node] } := by
  unfold push_pwd_node
  simp only
  split_ifs <;> rfl

theorem unescape_loop_length (data : List Nat) (n : Nat) :
    ∀ (fuel i : Nat) (out : List Nat), n - i ≤ fuel →
      out.length + (n - i + 1) / 2 ≤ (unescape_loop data n fuel i out).length ∧
      (unescape_loop data n fuel i out).length ≤ out.length + (n - i) := by
  intro fuel
  induction fuel with
  | zero =>
    intro i out h
    rw [unescape_loop_done data n 0 i out (by omega)]
    constructor <;> omega
  | succ f ih =>
    intro i out h
    by_cases hi : n ≤ i
    · rw [unescape_loop_done data n (f + 1) i out hi]
      constructor <;> omega
    · have hlt : i < n := by omega
      have a1 := fun o => ih (i + 1) o (by omega)
      have a2 := fun o => ih (i + 2) o (by omega)
      have l1 : ∀ x : Nat, (out ++ [x]).length = out.length + 1 := by intro x; simp
      rw [unescape_loop, if_pos hlt]
      split_ifs
      · have := a2 (out ++ [CONVERT_2_ORIGIN]); rw [l1] at this
        constructor <;> omega
      · have := a2 (out ++ [CONVERT_3_ORIGIN]); rw [l1] at this
        constructor <;> omega
      · have := a2 (out ++ [CONVERT_ORIGIN]); rw [l1] at this
        constructor <;> omega
      · have := a1 (out ++ [data.getD i 0]); rw [l1] at this
        constructor <;> omega
      · have := a1 (out ++ [data.getD i 0]); rw [l1] at this
        constructor <;> omega

theorem unescape_loop_literal (data : List Nat) (n fuel i : Nat) (out : List Nat)
    (hi : i < n) (h0 : data.getD i 0 = 0x04)
    (h1 : data.getD (i + 1) 0 ≠ 0x04 ∧ data.getD (i + 1) 0 ≠ 0x06 ∧ data.getD (i + 1) 0 ≠ 0x07) :
    unescape_loop data n (fuel + 1) i out = unescape_loop data n fuel (i + 1) (out ++ [0x04]) := by
  rw [unescape_loop, if_pos hi, if_pos h0.symm, if_neg (fun e => h1.2.1 e.symm),
    if_neg (fun e => h1.2.2 e.symm), if_neg (fun e => h1.1 e.symm), h0]

theorem unescape_loop_congr (d1 d2 : List Nat) (n : Nat)
    (hagree : ∀ j, j < n → d1.getD j 0 = d2.getD j 0)
    (h1 : d1.getD n 0 ≠ 0x04 ∧ d1.getD n 0 ≠ 0x06 ∧ d1.getD n 0 ≠ 0x07)
    (h2 : d2.getD n 0 ≠ 0x04 ∧ d2.getD n 0 ≠ 0x06 ∧ d2.getD n 0 ≠ 0x07) :
    ∀ (fuel i : Nat) (out : List Nat),
      unescape_loop d1 n fuel i out = unescape_loop d2 n fuel i out := by
  intro fuel
  induction fuel with
  | zero => intro i out; rfl
  | succ f ih =>
    intro i out
    by_cases hi : i < n
    · rw [unescape_loop, unescape_loop, if_pos hi, if_pos hi, hagree i hi]
      by_cases hn : i + 1 < n
      · rw [hagree (i + 1) hn]
        simp only [ih]
      · have e : i + 1 = n := by omega
        rw [e]
        have n1 : ¬ CONVERT_2 = d1.getD n 0 := fun e => h1.2.1 e.symm
        have n2 : ¬ CONVERT_3 = d1.getD n 0 := fun e => h1.2.2 e.symm
        have n3 : ¬ CONVERT = d1.getD n 0 := fun e => h1.1 e.symm
        have m1 : ¬ CONVERT_2 = d2.getD n 0 := fun e => h2.2.1 e.symm
        have m2 : ¬ CONVERT_3 = d2.getD n 0 := fun e => h2.2.2 e.symm
        have m3 : ¬ CONVERT = d2.getD n 0 := fun e => h2.1 e.symm
        simp only [n1, n2, n3, m1, m2, m3, if_false, ih]
    · rw [unescape_loop_done d1 n _ i out (by omega), unescape_loop_done d2 n _ i out (by omega)]

theorem decode_frame_some (data : List Nat) (len : Nat) (out : List Nat)
    (h : decode_frame data len = some out) :
    sum_check data len = true ∧ out = unescape data len := by
  unfold decode_frame at h
  split_ifs at h with h1 h2 h3
  exact ⟨h3, (Option.some.inj h).symm⟩

theorem getD_drop_one (data : List Nat) (i : Nat) :
    (data.drop 1).getD i 0 = data.getD (i + 1) 0 := by
  cases data with
  | nil => simp
  | cons a t => simp

theorem sum_check_digit (data : List Nat) (len : Nat) (h : sum_check data len = true) :
    0x30 ≤ data.getD (len - 3) 0 ∧ data.getD (len - 3) 0 ≤ 0x39 := by
  unfold sum_check at h
  simp only [Bool.and_eq_true, beq_iff_eq] at h
  rw [h.1]
  constructor <;> omega

theorem frame_region_getD (data : List Nat) (j : Nat) (hj : j < data.length - 4) :
    (frame_region data).getD j 0 = (data.drop 1).getD j 0 := by
  unfold frame_region
  rw [List.getD_eq_getElem?_getD, List.getD_eq_getElem?_getD, List.getElem?_take_of_lt hj]

theorem frame_region_getD_end (data : List Nat) :
    (frame_region data).getD (data.length - 4) 0 = 0 := by
  unfold frame_region
  rw [List.getD_eq_getElem?_getD, List.getElem?_eq_none]
  · rfl
  · simp

/-! ## Lemmas on the bit operations of the LED monitor -/

theorem bit_to_pos_loop_lowest :
    ∀ (f c pos : Nat), c ≠ 0 → c < 2 ^ f → pos + f ≤ 256 →
      ∃ i, i < f ∧ bit_to_pos_loop f c pos = some (pos + i) ∧ is_lowest_bit c i := by
  intro f
  induction f with
  | zero => intro c pos h0 hlt _; simp at hlt; exact absurd hlt h0
  | succ f ih =>
    intro c pos h0 hlt hpos
    rw [bit_to_pos_loop, Nat.and_one_is_mod]
    by_cases hev : c % 2 = 0
    · rw [if_pos hev.symm, Nat.shiftRight_one]
      have hf : 1 ≤ f := by
        rcases f with _ | f
        · simp at hlt; omega
        · omega
      have hm : (pos + 1) % 256 = pos + 1 := Nat.mod_eq_of_lt (by omega)
      rw [hm]
      have hlt2 : c / 2 < 2 ^ f := by
        rw [Nat.pow_succ] at hlt; omega
      obtain ⟨i, hi, hres, hbit, hlow⟩ := ih (c / 2) (pos + 1) (by omega) hlt2 (by omega)
      refine ⟨i + 1, by omega, ?_, ?_, ?_⟩
      · rw [hres]; congr 1; omega
      · rw [Nat.testBit_succ]; exact hbit
      · intro j hj
        rcases j with _ | j
        · simp [hev]
        · rw [Nat.testBit_succ]; exact hlow j (by omega)
    · have hodd : c % 2 = 1 := by omega
      rw [if_neg (by omega)]
      refine ⟨0, by omega, rfl, ?_, ?_⟩
      · simp [hodd]
      · intro j hj; omega

theorem is_lowest_bit_unique (c i j : Nat) (hi : is_lowest_bit c i) (hj : is_lowest_bit c j) :
    i = j := by
  rcases Nat.lt_trichotomy i j with h | h | h
  · have := hj.2 i h; rw [hi.1] at this; cases this
  · exact h
  · have := hi.2 j h; rw [hj.1] at this; cases this

theorem is_lowest_bit_two_pow (i : Nat) : is_lowest_bit (2 ^ i) i := by
  refine ⟨Nat.testBit_two_pow_self, fun j hj => ?_⟩
  exact Nat.testBit_two_pow_of_ne (by omega)

theorem bit_to_pos_two_pow (i : Nat) (hi : i < 16) : bit_to_pos (2 ^ i) = some i := by
  obtain ⟨k, _, hres, hlow⟩ := bit_to_pos_loop_lowest 16 (2 ^ i) 0 (by positivity)
    (Nat.pow_lt_pow_right (by decide) hi) (by decide)
  have := is_lowest_bit_unique _ _ _ hlow (is_lowest_bit_two_pow i)
  unfold bit_to_pos
  rw [hres, this, Nat.zero_add]

theorem pred_testBit :
    ∀ (i c : Nat), is_lowest_bit c i → ∀ k,
      (c - 1).testBit k = (decide (k < i) || (decide (i < k) && c.testBit k)) := by
  intro i
  induction i with
  | zero =>
    intro c h k
    have hodd : c % 2 = 1 := by simpa using h.1
    rcases k with _ | k
    · simp; omega
    · rw [Nat.testBit_succ, Nat.testBit_succ]
      have : (c - 1) / 2 = c / 2 := by omega
      rw [this]; simp
  | succ i ih =>
    intro c h k
    have hev : c % 2 = 0 := by
      have := h.2 0 (by omega)
      simp at this; omega
    have hge : 2 ^ (i + 1) ≤ c := Nat.testBit_implies_ge h.1
    have h2 : 2 ≤ c := by
      have : 2 ≤ 2 ^ (i + 1) := by
        calc 2 = 2 ^ 1 := rfl
          _ ≤ 2 ^ (i + 1) := Nat.pow_le_pow_right (by decide) (by omega)
      omega
    have hlow : is_lowest_bit (c / 2) i := by
      refine ⟨?_, fun j hj => ?_⟩
      · rw [← Nat.testBit_succ]; exact h.1
      · rw [← Nat.testBit_succ]; exact h.2 (j + 1) (by omega)
    rcases k with _ | k
    · simp; omega
    · rw [Nat.testBit_succ, Nat.testBit_succ]
      have : (c - 1) / 2 = c / 2 - 1 := by omega
      rw [this, ih (c / 2) hlow k]
      simp

theorem and_pred_testBit (c i : Nat) (h : is_lowest_bit c i) (k : Nat) :
    (c &&& (c - 1)).testBit k = (c.testBit k && decide (k ≠ i)) := by
  rw [Nat.testBit_and, pred_testBit i c h k]
  rcases Nat.lt_trichotomy k i with hk | hk | hk
  · have := h.2 k hk
    simp [this]
  · subst hk; simp
  · have h1 : ¬ k < i := by omega
    have h2 : k ≠ i := by omega
    simp [h1, hk, h2]

theorem lowest_changed_bit_eq (c i : Nat) (h : is_lowest_bit c i) (hc : c < 65536) :
    lowest_changed_bit c = 2 ^ i := by
  have hi : i < 16 := by
    by_contra hge
    have h1 : 2 ^ i ≤ c := Nat.testBit_implies_ge h.1
    have h2 : 2 ^ 16 ≤ 2 ^ i := Nat.pow_le_pow_right (by decide) (by omega)
    have h3 : (2 : Nat) ^ 16 = 65536 := by norm_num
    omega
  have hpos : 0 < c := by
    have h1 : 2 ^ i ≤ c := Nat.testBit_implies_ge h.1
    have : 0 < 2 ^ i := by positivity
    omega
  have e : 4294967295 - (c - 1) = 2 ^ 32 - ((c - 1) + 1) := by
    have h3 : (2 : Nat) ^ 32 = 4294967296 := by norm_num
    omega
  have hlt : c - 1 < 2 ^ 32 := by
    have h3 : (2 : Nat) ^ 32 = 4294967296 := by norm_num
    omega
  have key : c &&& (4294967295 - (c - 1)) = 2 ^ i := by
    apply Nat.eq_of_testBit_eq
    intro k
    rw [Nat.testBit_and, e, Nat.testBit_two_pow_sub_succ hlt, pred_testBit i c h k,
      Nat.testBit_two_pow]
    rcases Nat.lt_trichotomy k i with hk | hk | hk
    · have := h.2 k hk
      have h2 : ¬ i = k := by omega
      simp [this, h2]
    · subst hk
      have h32 : k < 32 := by omega
      simp [h.1, h32]
    · have h1 : ¬ k < i := by omega
      have h2 : ¬ i = k := by omega
      cases c.testBit k <;> simp [h1, hk, h2]
  unfold lowest_changed_bit
  rw [key]
  apply Nat.mod_eq_of_lt
  have h3 : (2 : Nat) ^ 16 = 65536 := by norm_num
  have := Nat.pow_lt_pow_right (a := 2) (by decide) hi
  omega

theorem exists_lowest_bit (c : Nat) (h0 : c ≠ 0) (hc : c < 65536) :
    ∃ i, i < 16 ∧ bit_to_pos c = some i ∧ is_lowest_bit c i := by
  have h3 : (2 : Nat) ^ 16 = 65536 := by norm_num
  obtain ⟨i, hi, hres, hlow⟩ := bit_to_pos_loop_lowest 16 c 0 h0 (by omega) (by decide)
  exact ⟨i, hi, by unfold bit_to_pos; rw [hres, Nat.zero_add], hlow⟩

theorem eq_zero_of_low_bits (c p : Nat) (hc : c < 65536) (hp : 16 ≤ p)
    (h : ∀ j, j < p → c.testBit j = false) : c = 0 := by
  apply Nat.eq_of_testBit_eq
  intro k
  rw [Nat.zero_testBit]
  by_cases hk : k < p
  · exact h k hk
  · apply Nat.testBit_lt_two_pow
    have h3 : (2 : Nat) ^ 16 = 65536 := by norm_num
    have : 2 ^ 16 ≤ 2 ^ k := Nat.pow_le_pow_right (by decide) (by omega)
    omega

theorem vLedMonitor_loop_spec (env : Env) (bp : parameters_t) (pargs : Bool) (timestamp : Nat) :
    ∀ (fuel p c : Nat) (st : Monitor × State) (seen : List Nat),
      c ≠ 0 → c < 65536 → (∀ j, j < p → c.testBit j = false) → 16 ≤ fuel + p →
      ∃ L : List Nat,
        vLedMonitor_loop env bp pargs timestamp fuel c st seen
          = some (L.foldl (fun x pos => led_changed_bit env bp pargs timestamp (2 ^ pos) pos x) st,
              seen ++ L) ∧
        (∀ k, k ∈ L ↔ c.testBit k = true) ∧ L.Pairwise (fun a b => a < b) ∧
        (∀ k, k ∈ L → p ≤ k) := by
  intro fuel
  induction fuel with
  | zero =>
    intro p c st seen h0 hc hlow hf
    exact absurd (eq_zero_of_low_bits c p hc (by omega) hlow) h0
  | succ f ih =>
    intro p c st seen h0 hc hlow hf
    obtain ⟨i, hi, _, hbit⟩ := exists_lowest_bit c h0 hc
    have hper := lowest_changed_bit_eq c i hbit hc
    have hpos := bit_to_pos_two_pow i hi
    have hpi : p ≤ i := by
      by_contra hlt
      have := hlow i (by omega)
      rw [hbit.1] at this; cases this
    have hle : c &&& (c - 1) ≤ c := Nat.and_le_left
    have hmod : (c &&& (c - 1)) % 65536 = c &&& (c - 1) := Nat.mod_eq_of_lt (by omega)
    rw [vLedMonitor_loop]
    simp only [hper, hpos, hmod]
    by_cases hz : c &&& (c - 1) = 0
    · rw [if_neg (fun h => h hz.symm)]
      refine ⟨[i], by simp, ?_, by simp, ?_⟩
      · intro k
        have hk := and_pred_testBit c i hbit k
        rw [hz, Nat.zero_testBit] at hk
        constructor
        · intro hmem
          simp only [List.mem_singleton] at hmem
          rw [hmem]; exact hbit.1
        · intro hb
          rw [hb] at hk
          simp only [Bool.true_and] at hk
          simp only [List.mem_singleton]
          by_contra hne
          simp [hne] at hk
      · intro k hmem
        simp only [List.mem_singleton] at hmem
        omega
    · rw [if_pos (fun h => hz h.symm)]
      obtain ⟨L, hres, hmem, hsorted, hge⟩ := ih (i + 1) (c &&& (c - 1))
        (led_changed_bit env bp pargs timestamp (2 ^ i) i st) (seen ++ [i]) hz (by omega)
        (fun j hj => by
          rw [and_pred_testBit c i hbit j]
          by_cases hji : j = i
          · simp [hji]
          · rw [hbit.2 j (by omega)]; rfl)
        (by omega)
      refine ⟨i :: L, ?_, ?_, ?_, ?_⟩
      · rw [hres]; simp
      · intro k
        rw [List.mem_cons, hmem k, and_pred_testBit c i hbit k]
        by_cases hki : k = i
        · subst hki; simp [hbit.1]
        · simp [hki]
      · rw [List.pairwise_cons]
        exact ⟨fun a ha => by have := hge a ha; omega, hsorted⟩
      · intro k hk
        rw [List.mem_cons] at hk
        rcases hk with hk | hk
        · omega
        · have := hge k hk; omega

/-! ## Arrival notification and password window: claims C21, C22, C23 -/

/-- Claim C21. For an arrival accepted by `elev_arrived` (robot mode, checkin
floor, current floor) with no acknowledgment pending: `elev_arrived` sends one
NOTIFY_ARRIVE; if the semaphore is never given, the retry loop of `vElevArrive`
returns after sending 5 more, 6 in total, and the queue is empty; if the
semaphore is given during the `k`-th wait, `1 ≤ k ≤ 6`, the loop returns with
exactly `k` notifications sent in total. -/
theorem C21_retry_bound (env : Env) (bp : parameters_t) (pargs : Bool) (floor : Nat)
    (given : Nat → Bool) (s : State) (hmode : s.work_state = work_robot)
    (hchk : robot_is_checkin (env.floormap_dis_to_phy floor) s = true)
    (hfloor : s.elev_cur_floor = floor) (hsem : s.xNotifySemaphore = false) :
    (elev_arrived env bp pargs floor s).sent
      = s.sent ++ [arrive_message env bp floor pargs s] ∧
    ((∀ k, given k = false) →
      vElevArrive_iteration env bp pargs given (elev_arrived env bp pargs floor s)
        = some { s with sent := s.sent ++ List.replicate 6 (arrive_message env bp floor pargs s),
                        xArriveQueue := none }) ∧
    (∀ k, 1 ≤ k → k ≤ 6 → (∀ j, j + 1 < k → given j = false) → given (k - 1) = true →
      vElevArrive_iteration env bp pargs given (elev_arrived env bp pargs floor s)
        = some { s with sent := s.sent ++ List.replicate k (arrive_message env bp floor pargs s),
                        xArriveQueue := none }) := by
  have ha := elev_arrived_accept env bp pargs floor s hmode hchk hfloor
  refine ⟨by rw [ha], ?_, ?_⟩
  · intro hg
    rw [ha]
    simp only [vElevArrive_iteration]
    rw [vElevArrive_retry_timeouts env bp pargs floor given 5 (MAX_CHECK_CNT + 1) 0 0
      { s with sent := s.sent ++ [arrive_message env bp floor pargs s], xArriveQueue := none }
      hsem (fun j _ _ => hg j) (by decide) (by decide)]
    simp only [MAX_CHECK_CNT, vElevArrive_retry, hsem, hg, Bool.or_self, Bool.false_eq_true,
      if_false]
    simp [arrive_message, List.replicate_succ]
  · intro k hk1 hk6 hg hk
    rw [ha]
    simp only [vElevArrive_iteration]
    rw [vElevArrive_retry_timeouts env bp pargs floor given (k - 1) (MAX_CHECK_CNT + 1) 0 0
      { s with sent := s.sent ++ [arrive_message env bp floor pargs s], xArriveQueue := none }
      hsem (fun j _ h2 => hg j (by omega)) (by simp only [MAX_CHECK_CNT]; omega)
      (by simp only [MAX_CHECK_CNT]; omega)]
    obtain ⟨f, hf⟩ : ∃ f, MAX_CHECK_CNT + 1 - (k - 1) = f + 1 :=
      ⟨MAX_CHECK_CNT - (k - 1), by simp only [MAX_CHECK_CNT]; omega⟩
    rw [hf, vElevArrive_retry]
    have hk' : given (0 + (k - 1)) = true := by rw [Nat.zero_add]; exact hk
    simp only [hk', Bool.or_true, if_true]
    obtain ⟨n, rfl⟩ : ∃ n, k = n + 1 := ⟨k - 1, by omega⟩
    simp [arrive_message, List.replicate_succ, hsem]

/-- Witness of C21: robot 9 checked in for floor 1, the car at floor 1 and no
acknowledgment. -/
theorem C21_retry_bound_witness :
    vElevArrive_iteration sample_env sample_param false (fun _ => false)
        (elev_arrived sample_env sample_param false 1 { sample_robot with checkin := 1 })
      = some { sample_robot with
          checkin := 1
          sent := List.replicate 6
            (arrive_message sample_env sample_param 1 false { sample_robot with checkin := 1 }) } :=
  (C21_retry_bound sample_env sample_param false 1 (fun _ => false)
    { sample_robot with checkin := 1 } (by decide) (by decide) (by decide) (by decide)).2.1
    (fun _ => rfl)

/-- Counterexample to C22 as stated: with the code 1 2 3, an empty window and
the floor at 5, after pushing (1,10), (2,11), (3,12) the first three slots are
(0,0), (1,10), (2,11), so the code is not matched and the floor is still 5. -/
theorem C22_counterexample :
    sample_monitor.led_pwd.take 3 = [1, 2, 3] ∧
    (push_pwd_node ⟨3, 12⟩ (push_pwd_node ⟨2, 11⟩ (push_pwd_node ⟨1, 10⟩
      (sample_monitor, { sample_idle with elev_cur_floor := 5 })))).1.pwds
      = [⟨0, 0⟩, ⟨1, 10⟩, ⟨2, 11⟩, ⟨3, 12⟩] ∧
    (push_pwd_node ⟨3, 12⟩ (push_pwd_node ⟨2, 11⟩ (push_pwd_node ⟨1, 10⟩
      (sample_monitor, { sample_idle with elev_cur_floor := 5 })))).2.elev_cur_floor = 5 := by
  decide

/-- Claim C22, amended. For every configured code `c1 c2 c3`, every prior window
and every `t0`: after pushing `(c1,t0)`, `(c2,t0+1)`, `(c3,t0+2)`, the push of
any fourth event `(x,t3)` with `t0 < t3` and `t3 - t0 < 30` finds the code in
the first three slots and calls `elev_set_first_floor`: the floor is 1
afterwards. -/
theorem C22_fourth_push (m : Monitor) (s : State) (c1 c2 c3 x t0 t3 : Nat)
    (h1 : m.led_pwd.getD 0 0 = c1) (h2 : m.led_pwd.getD 1 0 = c2) (h3 : m.led_pwd.getD 2 0 = c3)
    (hlt : t0 < t3) (hspan : t3 - t0 < 30) :
    (push_pwd_node ⟨x, t3⟩ (push_pwd_node ⟨c3, (t0 + 2) % 4294967296⟩
      (push_pwd_node ⟨c2, (t0 + 1) % 4294967296⟩ (push_pwd_node ⟨c1, t0⟩ (m, s))))).1.pwds
      = [⟨c1, t0⟩, ⟨c2, (t0 + 1) % 4294967296⟩, ⟨c3, (t0 + 2) % 4294967296⟩, ⟨x, t3⟩] ∧
    elev_floor (push_pwd_node ⟨x, t3⟩ (push_pwd_node ⟨c3, (t0 + 2) % 4294967296⟩
      (push_pwd_node ⟨c2, (t0 + 1) % 4294967296⟩ (push_pwd_node ⟨c1, t0⟩ (m, s))))).2 = 1 := by
  generalize hst : push_pwd_node ⟨c3, (t0 + 2) % 4294967296⟩
      (push_pwd_node ⟨c2, (t0 + 1) % 4294967296⟩ (push_pwd_node ⟨c1, t0⟩ (m, s))) = st
  have hm : st.1 = { m with pwds := [pwds_get m.pwds 3, ⟨c1, t0⟩, ⟨c2, (t0 + 1) % 4294967296⟩,
      ⟨c3, (t0 + 2) % 4294967296⟩] } := by
    rw [← hst, push_pwd_node_fst, push_pwd_node_fst, push_pwd_node_fst]
    simp [pwds_get]
  have hw : st.1.pwds = [pwds_get m.pwds 3, ⟨c1, t0⟩, ⟨c2, (t0 + 1) % 4294967296⟩,
      ⟨c3, (t0 + 2) % 4294967296⟩] := by rw [hm]
  have hp : st.1.led_pwd = m.led_pwd := by rw [hm]
  refine ⟨?_, ?_⟩
  · rw [push_pwd_node_fst, hw]; simp [pwds_get]
  · subst h1 h2 h3
    have hmul : (t3 - t0) * LED_INTERVAL % 4294967296 < LED_PWD_CHECK_TIME := by
      simp only [LED_INTERVAL, LED_PWD_CHECK_TIME]
      rw [Nat.mod_eq_of_lt (by omega)]
      omega
    have hgt : t3 > t0 := hlt
    simp [push_pwd_node, hw, hp, pwds_get, hgt, hmul, elev_floor,
      elev_set_first_floor, List.range_succ]

/-- Witness of the amended C22 for the code 1 2 3 and a fourth press of key 9. -/
theorem C22_fourth_push_witness :
    elev_floor (push_pwd_node ⟨9, 13⟩ (push_pwd_node ⟨3, (10 + 2) % 4294967296⟩
      (push_pwd_node ⟨2, (10 + 1) % 4294967296⟩ (push_pwd_node ⟨1, 10⟩
        (sample_monitor, { sample_idle with elev_cur_floor := 5 }))))).2 = 1 :=
  (C22_fourth_push sample_monitor { sample_idle with elev_cur_floor := 5 } 1 2 3 9 10 13
    (by decide) (by decide) (by decide) (by decide) (by decide)).2

/-- Claim C23, the code at a failing input. With the code 1 2 3 in the first
three slots after the push and the oldest and newest events 21474837 poll
intervals apart, the 32-bit product `21474837 * 200` wraps to 104, which is
below 6000, and `elev_set_first_floor` is called (floor 5 becomes 1); at a span
of 30 intervals it is not. -/
theorem C23_overflow :
    ((21474837 - 0) * LED_INTERVAL) % 4294967296 = 104 ∧
    (push_pwd_node ⟨9, 21474837⟩
      ({ sample_monitor with pwds := [⟨0, 0⟩, ⟨1, 0⟩, ⟨2, 1⟩, ⟨3, 2⟩] },
       { sample_idle with elev_cur_floor := 5 })).1.pwds
      = [⟨1, 0⟩, ⟨2, 1⟩, ⟨3, 2⟩, ⟨9, 21474837⟩] ∧
    (push_pwd_node ⟨9, 21474837⟩
      ({ sample_monitor with pwds := [⟨0, 0⟩, ⟨1, 0⟩, ⟨2, 1⟩, ⟨3, 2⟩] },
       { sample_idle with elev_cur_floor := 5 })).2.elev_cur_floor = 1 ∧
    (push_pwd_node ⟨9, 30⟩
      ({ sample_monitor with pwds := [⟨0, 0⟩, ⟨1, 0⟩, ⟨2, 1⟩, ⟨3, 2⟩] },
       { sample_idle with elev_cur_floor := 5 })).2.elev_cur_floor = 5 := by
  decide

/-! ## LED monitor: claims C24, C25 -/

/-- Claim C25. For 16-bit snapshots `prev ≠ cur`, one poll cycle of
`vLedMonitor` returns; the positions it processes are exactly the set bits of
`prev XOR cur`, each once, in strictly increasing order, all below 16; the
effect is that of the loop body applied to these positions in order, and the
stored snapshot is `cur` afterwards; a position whose floor is `INVALID_FLOOR`
changes nothing; `bit_to_pos` returns the index, below 16, of the lowest set
bit of every nonzero 16-bit argument. -/
theorem C25_changed_bits (env : Env) (bp : parameters_t) (pargs : Bool) (timestamp : Nat)
    (prev cur : Nat) (m : Monitor) (s : State)
    (hprev : m.led_status = prev) (hp : prev < 65536) (hc : cur < 65536) (hne : prev ≠ cur) :
    (∃ L : List Nat,
      vLedMonitor_cycle env bp pargs cur timestamp (m, s)
        = some (({ (L.foldl (fun x pos => led_changed_bit env bp pargs timestamp (2 ^ pos) pos x)
                    (m, s)).1 with led_status := cur },
                 (L.foldl (fun x pos => led_changed_bit env bp pargs timestamp (2 ^ pos) pos x)
                    (m, s)).2), L) ∧
      (∀ k, k ∈ L ↔ (prev ^^^ cur).testBit k = true) ∧ L.Pairwise (fun a b => a < b) ∧
      L.Nodup ∧ (∀ k, k ∈ L → k < 16)) ∧
    (∀ (per pos : Nat) (x : Monitor × State),
      env.keymap_key_to_floor pos = env.INVALID_FLOOR →
      led_changed_bit env bp pargs timestamp per pos x = x) ∧
    (∀ c, c ≠ 0 → c < 65536 →
      ∃ i, i < 16 ∧ bit_to_pos c = some i ∧ c.testBit i = true ∧
        ∀ j, j < i → c.testBit j = false) := by
  refine ⟨?_, ?_, ?_⟩
  · have hx : cur ^^^ prev < 65536 := by
      have h3 : (2 : Nat) ^ 16 = 65536 := by norm_num
      have := Nat.xor_lt_two_pow (n := 16) (by omega : cur < 2 ^ 16) (by omega : prev < 2 ^ 16)
      omega
    have hx0 : cur ^^^ prev ≠ 0 := by
      intro h
      apply hne
      apply Nat.eq_of_testBit_eq
      intro k
      have : (cur ^^^ prev).testBit k = false := by rw [h]; exact Nat.zero_testBit k
      rw [Nat.testBit_xor] at this
      cases h1 : cur.testBit k <;> cases h2 : prev.testBit k <;> simp [h1, h2] at this ⊢
    obtain ⟨L, hres, hmem, hsorted, _⟩ := vLedMonitor_loop_spec env bp pargs timestamp 16 0
      (cur ^^^ prev) (m, s) [] hx0 hx (fun j hj => by omega) (by omega)
    refine ⟨L, ?_, ?_, hsorted, ?_, ?_⟩
    · unfold vLedMonitor_cycle
      simp only [hprev]
      rw [if_pos (fun h => hx0 h.symm), hres]
      simp
    · intro k
      rw [hmem k, Nat.testBit_xor, Nat.testBit_xor]
      cases cur.testBit k <;> cases prev.testBit k <;> simp
    · exact hsorted.imp (fun h => Nat.ne_of_lt h)
    · intro k hk
      have hb := (hmem k).mp hk
      by_contra hge
      have h3 : (2 : Nat) ^ 16 = 65536 := by norm_num
      have h1 : 2 ^ k ≤ cur ^^^ prev := Nat.testBit_implies_ge hb
      have h2 : 2 ^ 16 ≤ 2 ^ k := Nat.pow_le_pow_right (by decide) (by omega)
      omega
  · intro per pos x hinv
    unfold led_changed_bit
    simp only [hinv]
    rw [if_neg (fun h => h rfl)]
  · intro c h0 hlt
    obtain ⟨i, hi, hres, hlow⟩ := exists_lowest_bit c h0 hlt
    exact ⟨i, hi, hres, hlow.1, hlow.2⟩

/-- Witness of C25 for the snapshots `0x0003` and `0x8015`. -/
theorem C25_changed_bits_witness :
    ∃ L : List Nat,
      vLedMonitor_cycle sample_env sample_param false 0x8015 7
        ({ sample_monitor with led_status := 0x0003 }, sample_idle)
        = some (({ (L.foldl (fun x pos =>
                      led_changed_bit sample_env sample_param false 7 (2 ^ pos) pos x)
                    ({ sample_monitor with led_status := 0x0003 }, sample_idle)).1
                    with led_status := 0x8015 },
                 (L.foldl (fun x pos =>
                      led_changed_bit sample_env sample_param false 7 (2 ^ pos) pos x)
                    ({ sample_monitor with led_status := 0x0003 }, sample_idle)).2), L) ∧
      (∀ k, k ∈ L ↔ (0x0003 ^^^ 0x8015).testBit k = true) ∧ L.Pairwise (fun a b => a < b) ∧
      L.Nodup ∧ (∀ k, k ∈ L → k < 16) :=
  (C25_changed_bits sample_env sample_param false 7 0x0003 0x8015
    { sample_monitor with led_status := 0x0003 } sample_idle rfl (by decide) (by decide)
    (by decide)).1

/-! ## Floor counting and unescape bounds: claims C26, C27, C28 -/

/-- Claim C26. After `elev_increase` the direction is up if the up indicator is
lit for the new floor, else down if the down indicator is lit, else stop; after
`elev_decrease` it is down if the down indicator is lit, else up if the up
indicator is lit, else stop; it is stop exactly when neither indicator is lit
for the new floor, and it does not depend on the direction before the call. -/
theorem C26_direction (env : Env) (s : State) :
    ((elev_increase env s).run_state
      = if env.is_up_led_on (elev_increase env s).elev_cur_floor then run_up
        else if env.is_down_led_on (elev_increase env s).elev_cur_floor then run_down
        else run_stop) ∧
    ((elev_decrease env s).run_state
      = if env.is_down_led_on (elev_decrease env s).elev_cur_floor then run_down
        else if env.is_up_led_on (elev_decrease env s).elev_cur_floor then run_up
        else run_stop) ∧
    ((elev_increase env s).run_state = run_stop ↔
      (env.is_up_led_on (elev_increase env s).elev_cur_floor = false ∧
       env.is_down_led_on (elev_increase env s).elev_cur_floor = false)) ∧
    ((elev_decrease env s).run_state = run_stop ↔
      (env.is_up_led_on (elev_decrease env s).elev_cur_floor = false ∧
       env.is_down_led_on (elev_decrease env s).elev_cur_floor = false)) ∧
    (∀ d : elev_run_state,
      (elev_increase env { s with run_state := d }).run_state = (elev_increase env s).run_state ∧
      (elev_decrease env { s with run_state := d }).run_state = (elev_decrease env s).run_state) := by
  refine ⟨rfl, rfl, ?_, ?_, fun d => ⟨rfl, rfl⟩⟩
  · simp only [elev_increase]
    cases env.is_up_led_on _ <;> cases env.is_down_led_on _ <;> simp
  · simp only [elev_decrease]
    cases env.is_up_led_on _ <;> cases env.is_down_led_on _ <;> simp

/-- Claim C27. For every nonzero 8-bit floor value, `elev_increase` followed by
`elev_decrease`, and `elev_decrease` followed by `elev_increase`, give back the
floor. -/
theorem C27_inverse (e1 e2 : Env) (s : State) (hne : s.elev_cur_floor ≠ 0)
    (hbyte : s.elev_cur_floor < 256) :
    elev_floor (elev_decrease e2 (elev_increase e1 s)) = s.elev_cur_floor ∧
    elev_floor (elev_increase e2 (elev_decrease e1 s)) = s.elev_cur_floor := by
  simp only [elev_floor, elev_increase, elev_decrease]
  constructor <;> split_ifs <;> omega

/-- Witness of C27 across the skipped floor 0: from -1 and from 1. -/
theorem C27_inverse_witness :
    elev_floor (elev_decrease sample_env (elev_increase sample_env
      { sample_idle with elev_cur_floor := 0xff })) = 0xff ∧
    elev_floor (elev_increase sample_env (elev_decrease sample_env sample_idle)) = 1 :=
  ⟨(C27_inverse sample_env sample_env { sample_idle with elev_cur_floor := 0xff }
      (by decide) (by decide)).1,
   (C27_inverse sample_env sample_env sample_idle (by decide) (by decide)).2⟩

/-- Claim C28. For every accepted frame of `len ≥ 4` bytes: (a) the unescape
loop emits `0x04` and advances by one byte when `0x04` is followed by a byte
other than `0x04`, `0x06`, `0x07`; (b) the byte after the escaped region, the
first check byte, is an ASCII digit, so it is never taken as the second half of
a pair, and the decoded payload is what the loop yields on the escaped region
alone; hence `ceil(m/2) ≤ n ≤ m` for the payload length `n` and
`m = len - 4`. -/
theorem C28_unescape_bounds (data out : List Nat) (h4 : 4 ≤ data.length)
    (hacc : decode_frame data data.length = some out) :
    (∀ (fuel i : Nat) (acc : List Nat), i < data.length - 4 →
      (data.drop 1).getD i 0 = 0x04 →
      ((data.drop 1).getD (i + 1) 0 ≠ 0x04 ∧ (data.drop 1).getD (i + 1) 0 ≠ 0x06 ∧
        (data.drop 1).getD (i + 1) 0 ≠ 0x07) →
      unescape_loop (data.drop 1) (data.length - 4) (fuel + 1) i acc
        = unescape_loop (data.drop 1) (data.length - 4) fuel (i + 1) (acc ++ [0x04])) ∧
    (0x30 ≤ (data.drop 1).getD (data.length - 4) 0 ∧
      (data.drop 1).getD (data.length - 4) 0 ≤ 0x39) ∧
    out = unescape_loop (frame_region data) (data.length - 4) (data.length - 4) 0 [] ∧
    (data.length - 4 + 1) / 2 ≤ out.length ∧ out.length ≤ data.length - 4 := by
  obtain ⟨hsum, hout⟩ := decode_frame_some data data.length out hacc
  have hdig : 0x30 ≤ (data.drop 1).getD (data.length - 4) 0 ∧
      (data.drop 1).getD (data.length - 4) 0 ≤ 0x39 := by
    have := sum_check_digit data data.length hsum
    rw [getD_drop_one]
    have e : data.length - 4 + 1 = data.length - 3 := by omega
    rw [e]; exact this
  refine ⟨fun fuel i acc hi h0 h1 => unescape_loop_literal _ _ fuel i acc hi h0 h1, hdig, ?_, ?_⟩
  · rw [hout]
    unfold unescape
    apply unescape_loop_congr
    · intro j hj
      exact (frame_region_getD data j hj).symm
    · refine ⟨?_, ?_, ?_⟩ <;> omega
    · rw [frame_region_getD_end]
      decide
  · have hl := unescape_loop_length (data.drop 1) (data.length - 4) (data.length - 4) 0 []
      (by omega)
    rw [hout]
    unfold unescape
    simp only [List.length_nil, Nat.sub_zero, Nat.zero_add] at hl
    exact hl

/-- Witness of C28 on a frame with one escape pair. -/
theorem C28_unescape_bounds_witness :
    List.length [0x01, 0x02, 0x05, 0x32, 0x07, 0x07] ≤ 11 - 4 ∧
    (11 - 4 + 1) / 2 ≤ List.length [0x01, 0x02, 0x05, 0x32, 0x07, 0x07] :=
  ⟨(C28_unescape_bounds [0x02, 0x01, 0x04, 0x06, 0x05, 0x32, 0x07, 0x07, 0x38, 0x30, 0x03]
      [0x01, 0x02, 0x05, 0x32, 0x07, 0x07] (by decide) (by decide)).2.2.2.2,
   (C28_unescape_bounds [0x02, 0x01, 0x04, 0x06, 0x05, 0x32, 0x07, 0x07, 0x38, 0x30, 0x03]
      [0x01, 0x02, 0x05, 0x32, 0x07, 0x07] (by decide) (by decide)).2.2.2.1⟩

end Jupiter
